import Mathlib

/-
Verification of the Outernet registry content engine against its
natural-language specification.

The development shallowly embeds the Python sources:
  registry/content/manager.py  (ContentManager, ActionRecords)
  registry/content/content.py  (add_content, get_content, update_content,
                                strip_extra, COLS)
  registry/utils/databases.py  (regexp_operator)

Python dictionaries are embedded as insertion-ordered association lists
over a dynamic value type; the SQLite storage layer is embedded as an
in-memory list of rows in insertion order.  Timestamps are modelled by an
integer clock value passed to each operation, standing for the value of
time.time during that call.

The module registry/content/filters.py (the to_filters decorator and the
filter classes) is not part of the provided sources.  Its behaviour is
modelled from the spec where definitions below say so: section 4.2 says
the serve_path filter is evaluated with the backend pattern-match
predicate, the glossary says alive entries are the default visibility
scope for reads, and section 8 requires getFile after a delete to return
absent unless alive is explicitly filtered.  The Python re module and the
filesystem are external to the repository and are abstracted as
parameters of an environment structure.
-/

namespace Registry

/-- Dynamic values as stored in Python dictionaries and SQLite columns.
The null constructor stands both for Python None and for SQL NULL. -/
inductive Value where
  | null : Value
  | int (n : Int) : Value
  | str (s : String) : Value
  | bool (b : Bool) : Value
deriving DecidableEq, Repr

/-- Python truthiness of a value, as used by bool(x) and if x. -/
def Value.truthy : Value → Bool
  | .null => false
  | .int n => n != 0
  | .str s => s != ""
  | .bool b => b

/-- Conversion applied by the sqlite3 driver when a Python value is bound
as a query parameter or stored in a column: booleans become the integers
one and zero, everything else is stored as given. -/
def toSql : Value → Value
  | .bool b => .int (if b then 1 else 0)
  | v => v

/-- Rendering of a value by the Python str.format method, used to build
exception messages in manager.py. -/
def Value.pyStr : Value → String
  | .null => "None"
  | .int n => toString n
  | .str s => s
  | .bool b => if b then "True" else "False"

/-- SQL equality comparison: a comparison with NULL is never true.  Used
for the equality filters and for the WHERE id=:id clause of UPDATE. -/
def sqlEq (a b : Value) : Bool :=
  match a, b with
  | .null, _ => false
  | _, .null => false
  | a, b => a == b

/-- SQL less-or-equal on integers, used by the modelled since filter.
Comparisons involving non-integers or NULL are never true. -/
def sqlLe (a b : Value) : Bool :=
  match a, b with
  | .int x, .int y => x ≤ y
  | _, _ => false

/-- A Python dictionary: an insertion-ordered association list with
string keys.  Operations below reproduce CPython dict semantics,
in particular assignment to an existing key keeps its position. -/
abbrev Dict := List (String × Value)

/-- Lookup, as in d.get(k) or d[k] when the key is present. -/
def dget : Dict → String → Option Value
  | [], _ => none
  | p :: rest, k => if p.1 = k then some p.2 else dget rest k

/-- Key membership test, as in the Python expression k in d. -/
def hasKey : Dict → String → Bool
  | [], _ => false
  | p :: rest, k => p.1 == k || hasKey rest k

/-- Assignment d[k] = v: replaces the value in place when the key exists,
otherwise appends the pair at the end. -/
def dset : Dict → String → Value → Dict
  | [], k, v => [(k, v)]
  | p :: rest, k, v =>
    if p.1 = k then (k, v) :: rest else p :: dset rest k v

/-- Deletion del d[k] (silently a no-op for a missing key, matching the
try/except KeyError wrapper in validate_list_filters). -/
def ddel : Dict → String → Dict
  | [], _ => []
  | p :: rest, k => if p.1 = k then ddel rest k else p :: ddel rest k

/-- Key list in insertion order, as in d.keys(). -/
def dkeys (d : Dict) : List String :=
  d.map (fun p => p.1)

/-- Dictionary update d.update(e): assigns every pair of e in order. -/
def dupdate (d e : Dict) : Dict :=
  e.foldl (fun acc p => dset acc p.1 p.2) d

/-- Errors raised by the embedded code.  In the Python source the first
four constructors are all the single ContentException class, raised at
distinct sites with distinct messages; the spec error taxonomy names the
sites separately, and the embedding keeps the sites apart while carrying
the exact message text.  The remaining constructors are Python builtin
or driver exception classes, which are not ContentException. -/
inductive PyErr where
  | duplicateEntry (msg : String) : PyErr
  | invalidPath (msg : String) : PyErr
  | notFound (msg : String) : PyErr
  | invalidFilter (msg : String) : PyErr
  | keyError (key : String) : PyErr
  | valueError (msg : String) : PyErr
  | typeError (msg : String) : PyErr
  | osError (msg : String) : PyErr
  | operationalError (msg : String) : PyErr
deriving DecidableEq, Repr

/-- Whether the error is the structured ContentException domain error of
manager.py, as opposed to a Python builtin or driver exception. -/
def PyErr.isContentException : PyErr → Bool
  | .duplicateEntry _ => true
  | .invalidPath _ => true
  | .notFound _ => true
  | .invalidFilter _ => true
  | _ => false

/-- A row of the content table, one field per column of COLS. -/
structure Entry where
  id : Value
  path : Value
  size : Value
  uploaded : Value
  modified : Value
  category : Value
  expiration : Value
  serve_path : Value
  alive : Value
deriving DecidableEq, Repr

/-- A row of the history table written by ActionRecords.add_action. -/
structure ActionRecord where
  file_id : Value
  client_name : String
  action : String
  action_params : String
  timestamp : Int
deriving DecidableEq, Repr

/-- The registry database: the content table and the history table in
insertion order, plus the next fresh rowid of the content table. -/
structure DB where
  content : List Entry
  history : List ActionRecord
  nextId : Nat
deriving DecidableEq, Repr

/-- Environment abstracting the parts external to the repository: the
Python re module (a compile function returning a search predicate on
success and nothing on a pattern error), the filesystem (size of the
regular file at a path, if any), the configured registry root path, and
the predicate used by the aired filter, whose semantics the spec leaves
undefined. -/
structure Env where
  regexCompile : String → Option (String → Bool)
  airedPred : Value → Entry → Bool
  root : String
  fsSize : String → Option Nat

/-- The column set of the content entity, COLS in content.py. -/
def COLS : List String :=
  ["id", "path", "size", "uploaded", "modified", "category", "expiration",
   "serve_path", "alive"]

/-- The recognized filter names, VALID_FILTERS in manager.py. -/
def VALID_FILTERS : List String :=
  ["id", "path", "since", "count", "category", "alive", "aired",
   "serve_path"]

/-- Attributes whose presence in update data bumps the modified
timestamp, MODIFY_TRIGGERS in manager.py. -/
def MODIFY_TRIGGERS : List String :=
  ["path", "size", "category", "expiration", "serve_path", "alive"]

/-- The strip_extra function of content.py: keeps the pairs whose key is
in the valid key list, preserving order. -/
def strip_extra (data : Dict) (valid : List String) : Dict :=
  data.filter (fun p => valid.contains p.1)

/-- The process_content_data function of content.py. -/
def process_content_data (data : Dict) : Dict :=
  strip_extra data COLS

/-- The regexp_operator function of databases.py, registered as the
SQLite REGEXP function.  The try block compiles the expression and
searches the item; any exception, including a pattern error or a type
error from a non-string argument, is caught, logged, and the function
falls through returning None, embedded here as the none outcome. -/
def regexp_operator (env : Env) (expr item : Value) : Option Bool :=
  match expr with
  | .str e =>
    match env.regexCompile e with
    | some f =>
      match item with
      | .str s => some (f s)
      | _ => none
    | none => none
  | _ => none

/-- Predicate applied by one named filter to a row.  Modelled from the
spec: filters.py is not in the provided sources.  Section 4.2 makes the
serve_path filter use the backend pattern-match predicate REGEXP, and
names id, path, since, count, category, alive, aired and serve_path as
the recognized filters; equality filters compare with the SQL-converted
parameter, since is a lower bound on the modified timestamp, and aired
keeps the abstract semantics of the environment.  A REGEXP result of
None is SQL NULL, which a WHERE clause treats as not true. -/
def filterPred (env : Env) (k : String) (v : Value) (e : Entry) : Bool :=
  if k = "id" then sqlEq e.id (toSql v)
  else if k = "path" then sqlEq e.path (toSql v)
  else if k = "category" then sqlEq e.category (toSql v)
  else if k = "alive" then sqlEq e.alive (toSql v)
  else if k = "since" then sqlLe (toSql v) e.modified
  else if k = "serve_path" then (regexp_operator env v e.serve_path).getD false
  else if k = "aired" then env.airedPred v e
  else true

/-- Conjunction of all filter predicates of a filter dictionary over one
row.  Modelled from the spec: when no alive filter is given, reads are
restricted to alive entries, per the glossary (alive entries are the
default visibility scope for reads) and the section 8 requirement that
getFile after a delete returns absent unless alive is explicitly
filtered.  The count key is a row limit, not a predicate. -/
def rowPred (env : Env) (filters : Dict) (e : Entry) : Bool :=
  ((ddel filters "count").all (fun p => filterPred env p.1 p.2 e))
    && (if hasKey filters "alive" then true else sqlEq e.alive (.int 1))

/-- The SQL LIMIT clause: a negative limit means no limit in SQLite.
The manager only ever passes integer counts to the query. -/
def sqlLimit (v : Value) (l : List Entry) : List Entry :=
  match v with
  | .int n => if n < 0 then l else l.take n.toNat
  | _ => l

/-- The get_content function of content.py: applies every filter
predicate to the content table in insertion order, then the row limit
when a count filter is present. -/
def get_content (env : Env) (db : DB) (filters : Dict) : List Entry :=
  let rows := db.content.filter (rowPred env filters)
  match dget filters "count" with
  | some v => sqlLimit v rows
  | none => rows

/-- The add_content function of content.py: strips the data to the
column set and inserts a row.  When the stripped data carries no id the
backend assigns the next fresh rowid; an explicit integer id is used as
the rowid and must not collide with an existing row (modelled from the
spec, which calls id a backend-assigned unique integer); a non-integer
id is a driver error.  Returns last_insert_rowid and the new state.
The buildEntry helper constructs the inserted row from the stripped
data: columns absent from the data are NULL, and values pass through
the driver conversion to SQL storage. -/
def buildEntry (d : Dict) (idv : Value) : Entry :=
  { id := idv
    path := toSql ((dget d "path").getD .null)
    size := toSql ((dget d "size").getD .null)
    uploaded := toSql ((dget d "uploaded").getD .null)
    modified := toSql ((dget d "modified").getD .null)
    category := toSql ((dget d "category").getD .null)
    expiration := toSql ((dget d "expiration").getD .null)
    serve_path := toSql ((dget d "serve_path").getD .null)
    alive := toSql ((dget d "alive").getD .null) }

def add_content (db : DB) (data : Dict) : Except PyErr (Value × DB) :=
  match dget (process_content_data data) "id" with
  | none =>
    .ok (.int (db.nextId : Int),
         { db with
           content := db.content ++ [buildEntry (process_content_data data) (.int (db.nextId : Int))],
           nextId := db.nextId + 1 })
  | some v =>
    match toSql v with
    | .int n =>
      if db.content.any (fun e => e.id == Value.int n) then
        .error (.operationalError "UNIQUE constraint failed: content.id")
      else
        .ok (.int n,
             { db with
               content := db.content ++ [buildEntry (process_content_data data) (.int n)],
               nextId := max db.nextId (n.toNat + 1) })
    | _ => .error (.operationalError "datatype mismatch")

/-- Field update of a row by column name, as performed by the SET clause
of the UPDATE statement built in update_content. -/
def entrySet (e : Entry) (k : String) (v : Value) : Entry :=
  if k = "id" then { e with id := v }
  else if k = "path" then { e with path := v }
  else if k = "size" then { e with size := v }
  else if k = "uploaded" then { e with uploaded := v }
  else if k = "modified" then { e with modified := v }
  else if k = "category" then { e with category := v }
  else if k = "expiration" then { e with expiration := v }
  else if k = "serve_path" then { e with serve_path := v }
  else if k = "alive" then { e with alive := v }
  else e

/-- Application of every column assignment of a stripped data dictionary
to one row. -/
def applyCols (e : Entry) (d : Dict) : Entry :=
  d.foldl (fun acc p => entrySet acc p.1 (toSql p.2)) e

/-- The update_content function of content.py: strips the data to the
column set and updates every row matching the id of the data with the
remaining column assignments.  A missing id key binds NULL in the WHERE
clause, which matches no row. -/
def update_content (db : DB) (data : Dict) : DB :=
  let d := process_content_data data
  let idv := toSql ((dget d "id").getD .null)
  { db with content :=
      db.content.map (fun e => if sqlEq e.id idv then applyCols e d else e) }

/-- The ActionRecords.add_action insert, reached through
ContentManager.record_action with the timestamp defaulted to the current
time. -/
def record_action (db : DB) (file_id : Value) (client : String)
    (action : String) (action_params : String) (now : Int) : DB :=
  { db with history :=
      db.history ++ [{ file_id := toSql file_id, client_name := client,
                       action := action, action_params := action_params,
                       timestamp := now }] }

/-- The validate_filters method of manager.py: raises ContentException
on the first key outside VALID_FILTERS, in dictionary order. -/
def validate_filters (filters : Dict) : Except PyErr Unit :=
  match (dkeys filters).find? (fun k => !(VALID_FILTERS.contains k)) with
  | some k => .error (.invalidFilter ("Invalid filter: " ++ k))
  | none => .ok ()

/-- The entry normalization of ContentManager, turning the stored alive
column into a Python boolean via bool. -/
def processEntry (e : Entry) : Entry :=
  { e with alive := .bool e.alive.truthy }

/-- The get_file method of manager.py: forces count to one, validates
the filter keys, runs the query and returns the first row normalized,
or nothing. -/
def get_file (env : Env) (db : DB) (kwargs : Dict) :
    Except PyErr (Option Entry) :=
  let filters := dset kwargs "count" (.int 1)
  match validate_filters filters with
  | .error e => .error e
  | .ok _ => .ok ((get_content env db filters).head?.map processEntry)

/-- The exists method of manager.py: forces alive to True into the
filters and reports whether a row came back. -/
def existsEntry (env : Env) (db : DB) (kwargs : Dict) :
    Except PyErr Bool :=
  match get_file env db (dset kwargs "alive" (.bool true)) with
  | .error e => .error e
  | .ok r => .ok r.isSome

/-- The default_filters method of manager.py. -/
def default_filters : Dict := [("count", Value.int 100)]

/-- Python min over the dynamic values that can appear as a count
filter, with the Python 2 cross-type ordering in which None sorts below
numbers and numbers sort below strings; booleans are the integers one
and zero.  Returns the first argument on ties, like Python min. -/
def valueMin : Value → Value → Value
  | .null, _ => .null
  | .int _, .null => .null
  | .bool _, .null => .null
  | .str _, .null => .null
  | .int x, .int y => if y < x then .int y else .int x
  | .int x, .bool y =>
    if (if y then (1 : Int) else 0) < x then .bool y else .int x
  | .bool x, .int y =>
    if y < (if x then (1 : Int) else 0) then .int y else .bool x
  | .bool x, .bool y =>
    if (if y then (1 : Int) else 0) < (if x then (1 : Int) else 0)
    then .bool y else .bool x
  | .int x, .str _ => .int x
  | .bool x, .str _ => .bool x
  | .str _, .int y => .int y
  | .str _, .bool y => .bool y
  | .str x, .str y => if y < x then .str y else .str x

/-- The validate_list_filters method of manager.py: deletes the count
filter when a serve_path or since filter is present, otherwise clamps
the count with min against MAX_LIST_COUNT, then requires a present
serve_path value to compile as a regular expression, raising the
builtin ValueError on a pattern error.  A non-string serve_path makes
re.compile raise a TypeError, which the except clause for re.error does
not catch. -/
def validate_list_filters (env : Env) (filters : Dict) :
    Except PyErr Dict :=
  let f1 := if hasKey filters "serve_path" || hasKey filters "since"
            then ddel filters "count" else filters
  let f2 :=
    match dget f1 "count" with
    | some c => dset f1 "count" (valueMin c (.int 1000))
    | none => f1
  match dget f2 "serve_path" with
  | none => .ok f2
  | some (.str p) =>
    match env.regexCompile p with
    | some _ => .ok f2
    | none =>
      .error (.valueError
        ("Invalid regular expression for serve_path: " ++ p))
  | some _ => .error (.typeError "first argument must be string")

/-- The list_files method of manager.py: merges the caller filters over
the defaults, validates them for listing and runs the query, normalizing
every returned row. -/
def list_files (env : Env) (db : DB) (kwargs : Dict) :
    Except PyErr (List Entry) :=
  let filters := dupdate default_filters kwargs
  match validate_list_filters env filters with
  | .error e => .error e
  | .ok vf => .ok ((get_content env db vf).map processEntry)

/-- Character-list prefix test: the Python str.startswith comparison
written out over the characters of the two strings. -/
def chPre : List Char → List Char → Bool
  | [], _ => true
  | _ :: _, [] => false
  | a :: p, b :: s => a == b && chPre p s

/-- The _validate_path method of manager.py: a falsy path, a path
outside the configured root, and a path that is not an existing regular
file each raise ContentException; a truthy non-string path makes the
startswith attribute lookup raise, which is not a ContentException. -/
def validatePath (env : Env) (v : Value) : Except PyErr Unit :=
  if v.truthy = false then
    .error (.invalidPath ("Invalid path " ++ v.pyStr))
  else
    match v with
    | .str p =>
      if chPre env.root.data p.data = false then
        .error (.invalidPath
          (" " ++ p ++ " does not fall under " ++ env.root ++ " hierarchy."))
      else
        match env.fsSize p with
        | some _ => .ok ()
        | none => .error (.invalidPath ("No file at path " ++ p))
    | _ => .error (.typeError "startswith")

/-- The _validate_params method of manager.py: validates the path
attribute when present. -/
def validateParams (env : Env) (params : Dict) : Except PyErr Unit :=
  match dget params "path" with
  | some v => validatePath env v
  | none => .ok ()

/-- The data mutation performed by _add_file of manager.py on the
params dictionary: alive True, uploaded and modified stamped with the
current time, size stamped with the byte size of the file at the path
argument; the _add_file definition below then inserts the data through
add_content, and a missing file makes os.path.getsize raise OSError. -/
def addData (now : Int) (sz : Int) (params : Dict) : Dict :=
  dset (dset (dset (dset params "alive" (.bool true))
    "uploaded" (.int now)) "modified" (.int now)) "size" (.int sz)

def _add_file (env : Env) (now : Int) (path : String) (params : Dict)
    (db : DB) : Except PyErr (Value × DB) :=
  match env.fsSize path with
  | none => .error (.osError path)
  | some n => add_content db (addData now (n : Int) params)

/-- The duplicate message raised by add_file. -/
def dupMsg (sp : Value) : String :=
  "File at serve_path " ++ sp.pyStr ++ " already exists."

/-- The missing-entry message raised by update_file and delete_file. -/
def nfMsg (idv : Value) : String :=
  "File with id " ++ idv.pyStr ++ " does not exist."

/-- The add_file method of manager.py: reads the serve_path key (a
missing key raises the builtin KeyError), rejects a duplicate among
alive entries, validates the params, inserts, records the add action
with empty action params, and returns the freshly read entry. -/
def add_file (env : Env) (now : Int) (client : String) (path : String)
    (params : Dict) (db : DB) : Except PyErr (Option Entry) × DB :=
  match dget params "serve_path" with
  | none => (.error (.keyError "serve_path"), db)
  | some sp =>
    match existsEntry env db [("serve_path", sp)] with
    | .error e => (.error e, db)
    | .ok true => (.error (.duplicateEntry (dupMsg sp)), db)
    | .ok false =>
      match validateParams env params with
      | .error e => (.error e, db)
      | .ok _ =>
        match _add_file env now path params db with
        | .error e => (.error e, db)
        | .ok (idv, db1) =>
          let db2 := record_action db1 idv client "add" "" now
          match get_file env db2 [("id", idv)] with
          | .error e => (.error e, db2)
          | .ok r => (.ok r, db2)

/-- The size recomputation step of _update_file: when the data carries a
path, its on-disk size is stamped into the data. -/
def sizeStep (env : Env) (d : Dict) : Except PyErr Dict :=
  match dget d "path" with
  | none => .ok d
  | some (.str p) =>
    match env.fsSize p with
    | some n => .ok (dset d "size" (.int n))
    | none => .error (.osError p)
  | some _ => .error (.typeError "coercing to Unicode")

/-- The _update_file method of manager.py: stamps the id into the data
dictionary in place, recomputes the size when a path is present, bumps
the modified timestamp when any trigger attribute is present, and
updates the row.  The mutated data dictionary is returned because the
caller aliases it when joining the action params. -/
def _update_file (env : Env) (now : Int) (idv : Value) (params : Dict)
    (db : DB) : Except PyErr (Dict × DB) :=
  match sizeStep env (dset params "id" idv) with
  | .error e => .error e
  | .ok d1 =>
    let d2 := if MODIFY_TRIGGERS.any (fun k => hasKey d1 k)
              then dset d1 "modified" (.int now) else d1
    .ok (d2, update_content db d2)

/-- The update_file method of manager.py: requires an alive entry with
the id, validates the params, updates the row, records the update action
with the comma-joined key list of the params dictionary as mutated by
_update_file, and returns the freshly read entry. -/
def update_file (env : Env) (now : Int) (client : String) (idv : Value)
    (params : Dict) (db : DB) : Except PyErr (Option Entry) × DB :=
  match existsEntry env db [("id", idv)] with
  | .error e => (.error e, db)
  | .ok false => (.error (.notFound (nfMsg idv)), db)
  | .ok true =>
    match validateParams env params with
    | .error e => (.error e, db)
    | .ok _ =>
      match _update_file env now idv params db with
      | .error e => (.error e, db)
      | .ok (d2, db1) =>
        let db2 := record_action db1 idv client "update"
                     (String.intercalate ", " (dkeys d2)) now
        match get_file env db2 [("id", idv)] with
        | .error e => (.error e, db2)
        | .ok r => (.ok r, db2)

/-- The delete_file method of manager.py together with _delete_file:
requires an alive entry with the id, sets alive to False and modified to
now on the row, and records the delete action. -/
def delete_file (env : Env) (now : Int) (client : String) (idv : Value)
    (db : DB) : Except PyErr Unit × DB :=
  match existsEntry env db [("id", idv)] with
  | .error e => (.error e, db)
  | .ok false => (.error (.notFound (nfMsg idv)), db)
  | .ok true =>
    let data : Dict :=
      [("id", idv), ("alive", Value.bool false), ("modified", Value.int now)]
    let db1 := update_content db data
    (.ok (), record_action db1 idv client "delete" "" now)

/-- Character-list substring search used by the concrete witness
engine. -/
def chSearch (p : List Char) : List Char → Bool
  | [] => chPre p []
  | b :: s => chPre p (b :: s) || chSearch p s

/-- Substring search used by the concrete witness engine. -/
def toyMatch (p s : String) : Bool :=
  chSearch p.data s.data

/-- Concrete stand-in for re.compile in witnesses and counterexamples.
It agrees with the Python re module on every pattern used below: a
pattern containing an opening parenthesis alone, such as a lone
parenthesis, fails to compile in Python, and a metacharacter-free
pattern matches a string exactly when it occurs in it as a substring. -/
def toyCompile (p : String) : Option (String → Bool) :=
  if p.data.contains '(' then none else some (toyMatch p)

/-- Concrete environment for witnesses and counterexamples. -/
def toyEnv : Env :=
  { regexCompile := toyCompile
    airedPred := fun _ _ => true
    root := "/srv"
    fsSize := fun p =>
      if p = "/srv/a.mp4" then some 3
      else if p = "/srv/b.mp4" then some 7
      else none }

/-! Dictionary lemmas. -/

theorem dget_dset_self (d : Dict) (k : String) (v : Value) :
    dget (dset d k v) k = some v := by
  induction d with
  | nil => simp [dset, dget]
  | cons p rest ih =>
    by_cases h : p.1 = k <;> simp [dset, dget, h, ih]

theorem dget_dset_ne (d : Dict) (k k' : String) (v : Value)
    (h : k' ≠ k) : dget (dset d k v) k' = dget d k' := by
  induction d with
  | nil => simp [dset, dget, Ne.symm h]
  | cons p rest ih =>
    by_cases hp : p.1 = k
    · subst hp
      simp [dset, dget, Ne.symm h]
    · simp [dset, dget, hp, ih]

theorem hasKey_dset (d : Dict) (k k' : String) (v : Value) :
    hasKey (dset d k v) k' = if k' = k then true else hasKey d k' := by
  induction d with
  | nil =>
    by_cases h : k' = k
    · simp [dset, hasKey, h]
    · have h2 : ¬ k = k' := fun hh => h hh.symm
      simp [dset, hasKey, h, h2]
  | cons p rest ih =>
    by_cases hp : p.1 = k
    · subst hp
      by_cases h : k' = p.1
      · simp [dset, hasKey, h]
      · have h2 : ¬ p.1 = k' := fun hh => h hh.symm
        simp [dset, hasKey, h, h2]
    · by_cases h : k' = k
      · subst h
        simp [dset, hasKey, hp, ih]
      · simp [dset, hasKey, hp, ih, h]

theorem mem_dkeys (d : Dict) (k : String) :
    k ∈ dkeys d ↔ hasKey d k = true := by
  induction d with
  | nil => simp [dkeys, hasKey]
  | cons p rest ih =>
    simp only [dkeys, List.map_cons, List.mem_cons, hasKey,
      Bool.or_eq_true, beq_iff_eq]
    rw [show (List.map (fun p => p.1) rest) = dkeys rest from rfl, ih]
    exact or_congr eq_comm Iff.rfl

theorem dget_none_iff_hasKey (d : Dict) (k : String) :
    dget d k = none ↔ hasKey d k = false := by
  induction d with
  | nil => simp [dget, hasKey]
  | cons p rest ih =>
    by_cases h : p.1 = k <;> simp [dget, hasKey, h, ih]

theorem dkeys_dset (d : Dict) (k : String) (v : Value) :
    dkeys (dset d k v)
      = if hasKey d k then dkeys d else dkeys d ++ [k] := by
  induction d with
  | nil => simp [dset, dkeys, hasKey]
  | cons p rest ih =>
    by_cases h : p.1 = k
    · simp [dset, dkeys, hasKey, h]
    · cases h2 : hasKey rest k <;>
        simp [dset, dkeys, hasKey, h, h2] at ih ⊢ <;> simp [ih]

theorem dget_ddel_ne (d : Dict) (k k' : String) (h : k' ≠ k) :
    dget (ddel d k) k' = dget d k' := by
  induction d with
  | nil => simp [ddel]
  | cons p rest ih =>
    by_cases hp : p.1 = k
    · subst hp
      simp [ddel, dget, Ne.symm h, ih]
    · simp [ddel, dget, hp, ih]

theorem dget_ddel_self (d : Dict) (k : String) :
    dget (ddel d k) k = none := by
  induction d with
  | nil => simp [ddel, dget]
  | cons p rest ih =>
    by_cases hp : p.1 = k <;> simp [ddel, dget, hp, ih]

theorem dget_dupdate_of_none (d e : Dict) (k : String)
    (h : dget e k = none) : dget (dupdate d e) k = dget d k := by
  induction e generalizing d with
  | nil => simp [dupdate]
  | cons p rest ih =>
    by_cases hp : p.1 = k
    · simp [dget, hp] at h
    · simp only [dget, if_neg hp] at h
      simp only [dupdate, List.foldl_cons]
      have := ih (dset d p.1 p.2) h
      simp only [dupdate] at this
      rw [this, dget_dset_ne d p.1 k p.2 (fun hh => hp hh.symm)]

theorem dget_dupdate_of_some (d e : Dict) (k : String) (v : Value)
    (hnd : (dkeys e).Nodup) (h : dget e k = some v) :
    dget (dupdate d e) k = some v := by
  induction e generalizing d with
  | nil => simp [dget] at h
  | cons p rest ih =>
    simp only [dkeys, List.map_cons, List.nodup_cons] at hnd
    by_cases hp : p.1 = k
    · subst hp
      simp [dget] at h
      have hrest : dget rest p.1 = none := by
        rw [dget_none_iff_hasKey]
        cases hh : hasKey rest p.1
        · rfl
        · exact absurd ((mem_dkeys rest p.1).mpr hh) hnd.1
      simp only [dupdate, List.foldl_cons]
      have h2 := dget_dupdate_of_none (dset d p.1 p.2) rest p.1 hrest
      simp only [dupdate] at h2
      rw [h2, dget_dset_self, h]
    · simp only [dget, if_neg hp] at h
      simp only [dupdate, List.foldl_cons]
      have h2 := ih (dset d p.1 p.2) hnd.2 h
      simp only [dupdate] at h2
      exact h2

theorem hasKey_dupdate (d e : Dict) (k : String) :
    hasKey (dupdate d e) k = (hasKey d k || hasKey e k) := by
  induction e generalizing d with
  | nil => simp [dupdate, hasKey]
  | cons p rest ih =>
    simp only [dupdate, List.foldl_cons]
    have h3 := ih (dset d p.1 p.2)
    simp only [dupdate] at h3
    rw [h3, hasKey_dset]
    by_cases h : k = p.1
    · subst h
      simp [hasKey]
    · have h2 : ¬ p.1 = k := fun hh => h hh.symm
      have h4 : (p.1 == k) = false := by simp [h2]
      simp [hasKey, h, h4]

/-! Value lemmas. -/

theorem sqlEq_eq {a b : Value} (h : sqlEq a b = true) : a = b := by
  cases a <;> cases b <;> simp [sqlEq] at h <;> simp [h]

theorem valueMin_int (n m : Int) :
    valueMin (.int n) (.int m) = .int (min n m) := by
  by_cases h : m < n
  · simp [valueMin, h, min_eq_right (le_of_lt h)]
  · simp [valueMin, h, min_eq_left (le_of_not_lt h)]

/-! Entry field lemmas. -/

theorem entrySet_modified_ne (e : Entry) (k : String) (v : Value)
    (h : k ≠ "modified") : (entrySet e k v).modified = e.modified := by
  unfold entrySet
  split_ifs <;> simp_all

theorem applyCols_modified_of_not_mem (d : Dict) (e : Entry)
    (h : ¬ "modified" ∈ dkeys d) :
    (applyCols e d).modified = e.modified := by
  induction d generalizing e with
  | nil => rfl
  | cons p rest ih =>
    simp only [dkeys, List.map_cons, List.mem_cons, not_or] at h
    calc (applyCols e (p :: rest)).modified
        = (applyCols (entrySet e p.1 (toSql p.2)) rest).modified := rfl
      _ = (entrySet e p.1 (toSql p.2)).modified := ih _ h.2
      _ = e.modified :=
          entrySet_modified_ne e p.1 (toSql p.2) (fun hh => h.1 hh.symm)

/-! Query-shape lemmas. -/

theorem head_take_filter_isSome (p : Entry → Bool) (l : List Entry) :
    ((((l.filter p).take 1).head?).map processEntry).isSome
      = l.any p := by
  induction l with
  | nil => rfl
  | cons a t ih => by_cases h : p a <;> simp [List.filter_cons, h, ih]

theorem head_take_one (l : List Entry) : (l.take 1).head? = l.head? := by
  cases l <;> rfl

theorem existsEntry_serve (env : Env) (db : DB) (sp : Value) :
    existsEntry env db [("serve_path", sp)]
      = .ok (db.content.any (fun x =>
          (regexp_operator env sp x.serve_path).getD false
            && sqlEq x.alive (Value.int 1))) := by
  have hf : rowPred env
      [("serve_path", sp), ("alive", Value.bool true), ("count", Value.int 1)]
      = (fun x => (regexp_operator env sp x.serve_path).getD false
          && sqlEq x.alive (Value.int 1)) := by
    funext e
    simp [rowPred, ddel, filterPred, hasKey, toSql]
  have h0 : existsEntry env db [("serve_path", sp)]
      = Except.ok ((((db.content.filter (rowPred env
          [("serve_path", sp), ("alive", Value.bool true),
           ("count", Value.int 1)])).take 1).head?.map
           processEntry).isSome) := rfl
  rw [h0, hf, head_take_filter_isSome]

theorem existsEntry_id (env : Env) (db : DB) (idv : Value) :
    existsEntry env db [("id", idv)]
      = .ok (db.content.any (fun x =>
          sqlEq x.id (toSql idv) && sqlEq x.alive (Value.int 1))) := by
  have hf : rowPred env
      [("id", idv), ("alive", Value.bool true), ("count", Value.int 1)]
      = (fun x => sqlEq x.id (toSql idv)
          && sqlEq x.alive (Value.int 1)) := by
    funext e
    simp [rowPred, ddel, filterPred, hasKey, toSql]
  have h0 : existsEntry env db [("id", idv)]
      = Except.ok ((((db.content.filter (rowPred env
          [("id", idv), ("alive", Value.bool true),
           ("count", Value.int 1)])).take 1).head?.map
           processEntry).isSome) := rfl
  rw [h0, hf, head_take_filter_isSome]

theorem get_file_id (env : Env) (db : DB) (idv : Value) :
    get_file env db [("id", idv)]
      = .ok ((db.content.filter (fun x =>
          sqlEq x.id (toSql idv) && sqlEq x.alive (Value.int 1))
          ).head?.map processEntry) := by
  have hf : rowPred env [("id", idv), ("count", Value.int 1)]
      = (fun x => sqlEq x.id (toSql idv)
          && sqlEq x.alive (Value.int 1)) := by
    funext e
    simp [rowPred, ddel, filterPred, hasKey, toSql]
  have h0 : get_file env db [("id", idv)]
      = Except.ok (((db.content.filter (rowPred env
          [("id", idv), ("count", Value.int 1)])).take 1).head?.map
           processEntry) := rfl
  rw [h0, hf, head_take_one]

theorem get_file_id_alive_false (env : Env) (db : DB) (idv : Value) :
    get_file env db [("id", idv), ("alive", Value.bool false)]
      = .ok ((db.content.filter (fun x =>
          sqlEq x.id (toSql idv) && sqlEq x.alive (Value.int 0))
          ).head?.map processEntry) := by
  have hf : rowPred env
      [("id", idv), ("alive", Value.bool false), ("count", Value.int 1)]
      = (fun x => sqlEq x.id (toSql idv)
          && sqlEq x.alive (Value.int 0)) := by
    funext e
    simp [rowPred, ddel, filterPred, hasKey, toSql]
  have h0 : get_file env db [("id", idv), ("alive", Value.bool false)]
      = Except.ok (((db.content.filter (rowPred env
          [("id", idv), ("alive", Value.bool false),
           ("count", Value.int 1)])).take 1).head?.map
           processEntry) := rfl
  rw [h0, hf, head_take_one]

theorem hasKey_of_dget_some {d : Dict} {k : String} {v : Value}
    (h : dget d k = some v) : hasKey d k = true := by
  cases hh : hasKey d k
  · rw [(dget_none_iff_hasKey d k).mpr hh] at h
    exact Option.noConfusion h
  · rfl

theorem dget_strip_of_mem (d : Dict) (cols : List String) (k : String)
    (hmem : k ∈ cols) : dget (strip_extra d cols) k = dget d k := by
  induction d with
  | nil => rfl
  | cons p rest ih =>
    unfold strip_extra at ih ⊢
    rw [List.filter_cons]
    by_cases hc : cols.contains p.1 = true
    · rw [if_pos hc]
      by_cases hk : p.1 = k
      · simp [dget, hk]
      · simp only [dget, if_neg hk]
        exact ih
    · rw [if_neg hc]
      have hk : ¬ p.1 = k := by
        intro hh
        subst hh
        exact hc (by simpa using hmem)
      rw [ih]
      simp [dget, hk]

theorem dkeys_strip_mem (d : Dict) (cols : List String) (k : String)
    (hk : k ∈ dkeys (strip_extra d cols)) : k ∈ cols := by
  simp only [dkeys, strip_extra, List.mem_map] at hk
  obtain ⟨p, hp, rfl⟩ := hk
  have := (List.mem_filter.mp hp).2
  simpa using this

theorem validatePath_err_shape (env : Env) (v : Value) (e : PyErr)
    (h : validatePath env v = .error e) :
    (∃ m, e = .invalidPath m) ∨ (∃ m, e = .typeError m) := by
  unfold validatePath at h
  split at h
  · exact Or.inl ⟨_, (Except.error.inj h).symm⟩
  · split at h
    · split at h
      · exact Or.inl ⟨_, (Except.error.inj h).symm⟩
      · split at h
        · exact Except.noConfusion h
        · exact Or.inl ⟨_, (Except.error.inj h).symm⟩
    · exact Or.inr ⟨_, (Except.error.inj h).symm⟩

theorem validateParams_err_shape (env : Env) (params : Dict) (e : PyErr)
    (h : validateParams env params = .error e) :
    (∃ m, e = .invalidPath m) ∨ (∃ m, e = .typeError m) := by
  unfold validateParams at h
  split at h
  · exact validatePath_err_shape env _ e h
  · exact Except.noConfusion h

theorem sizeStep_err_shape (env : Env) (d : Dict) (e : PyErr)
    (h : sizeStep env d = .error e) :
    (∃ m, e = .osError m) ∨ (∃ m, e = .typeError m) := by
  unfold sizeStep at h
  split at h
  · exact Except.noConfusion h
  · split at h
    · exact Except.noConfusion h
    · exact Or.inl ⟨_, (Except.error.inj h).symm⟩
  · exact Or.inr ⟨_, (Except.error.inj h).symm⟩

theorem add_content_err_shape (db : DB) (data : Dict) (e : PyErr)
    (h : add_content db data = .error e) :
    ∃ m, e = .operationalError m := by
  unfold add_content at h
  split at h
  · exact Except.noConfusion h
  · split at h
    · split at h
      · exact ⟨_, (Except.error.inj h).symm⟩
      · exact Except.noConfusion h
    · exact ⟨_, (Except.error.inj h).symm⟩

theorem _add_file_err_shape (env : Env) (now : Int) (path : String)
    (params : Dict) (db : DB) (e : PyErr)
    (h : _add_file env now path params db = .error e) :
    (∃ m, e = .osError m) ∨ (∃ m, e = .operationalError m) := by
  unfold _add_file at h
  split at h
  · exact Or.inl ⟨_, (Except.error.inj h).symm⟩
  · exact Or.inr (add_content_err_shape db _ e h)

theorem _update_file_err_shape (env : Env) (now : Int) (idv : Value)
    (params : Dict) (db : DB) (e : PyErr)
    (h : _update_file env now idv params db = .error e) :
    (∃ m, e = .osError m) ∨ (∃ m, e = .typeError m) := by
  unfold _update_file at h
  cases hs : sizeStep env (dset params "id" idv) with
  | error e2 =>
    simp only [hs] at h
    rw [← Except.error.inj h]
    exact sizeStep_err_shape env _ e2 hs
  | ok d1 =>
    simp only [hs] at h
    exact Except.noConfusion h

/-- Claim C8.  For every filter mapping, validate_filters fails with the
InvalidFilter ContentException exactly when some key lies outside the
closed recognized filter set, and passes exactly when every key is
recognized; the raised error names the first offending key. -/
theorem claim8_validate_filters_iff (filters : Dict) :
    (validate_filters filters = .ok ()
      ↔ ∀ k ∈ dkeys filters, k ∈ VALID_FILTERS) ∧
    (∀ e, validate_filters filters = .error e →
      ∃ k, k ∈ dkeys filters ∧ ¬ k ∈ VALID_FILTERS ∧
        e = .invalidFilter ("Invalid filter: " ++ k)) := by
  constructor
  · constructor
    · intro h k hk
      unfold validate_filters at h
      cases hf : (dkeys filters).find?
          (fun k => !(VALID_FILTERS.contains k)) with
      | some k2 => rw [hf] at h; exact Except.noConfusion h
      | none =>
        have := List.find?_eq_none.mp hf k hk
        simpa using this
    · intro h
      unfold validate_filters
      have hf : (dkeys filters).find?
          (fun k => !(VALID_FILTERS.contains k)) = none := by
        rw [List.find?_eq_none]
        intro x hx
        simpa using h x hx
      rw [hf]
  · intro e he
    unfold validate_filters at he
    cases hf : (dkeys filters).find?
        (fun k => !(VALID_FILTERS.contains k)) with
    | none => rw [hf] at he; exact Except.noConfusion he
    | some k =>
      rw [hf] at he
      have hk := List.mem_of_find?_eq_some hf
      have hp := List.find?_some hf
      refine ⟨k, hk, by simpa using hp, (Except.error.inj he).symm⟩

/-- Witness for claim C8 at concrete filter mappings: a mapping with
only recognized keys passes, a mapping with the unrecognized key foo
does not pass. -/
theorem claim8_witness :
    validate_filters [("serve_path", Value.str "a")] = .ok ()
    ∧ ¬ validate_filters [("foo", Value.int 1)] = .ok () := by
  constructor
  · exact (claim8_validate_filters_iff
      [("serve_path", Value.str "a")]).1.mpr (by decide)
  · intro h
    have h2 := (claim8_validate_filters_iff [("foo", Value.int 1)]).1.mp h
    exact absurd (h2 "foo" (by decide)) (by decide)

/-- Claim C10.  When the params of add_file carry no serve_path key the
call fails immediately with the builtin KeyError, which is not the
ContentException domain error, and the database state, content and
audit history alike, is returned unchanged. -/
theorem claim10_missing_serve_path (env : Env) (now : Int)
    (client path : String) (params : Dict) (db : DB)
    (h : hasKey params "serve_path" = false) :
    add_file env now client path params db
      = (.error (.keyError "serve_path"), db)
    ∧ (PyErr.keyError "serve_path").isContentException = false := by
  have hget : dget params "serve_path" = none :=
    (dget_none_iff_hasKey params "serve_path").mpr h
  constructor
  · unfold add_file
    rw [hget]
  · rfl

/-- Witness for claim C10: an add_file call with empty params fails with
KeyError and leaves the empty database unchanged. -/
theorem claim10_witness :
    hasKey ([] : Dict) "serve_path" = false
    ∧ add_file toyEnv 1 "c" "/srv/a.mp4" [] ⟨[], [], 1⟩
        = (.error (.keyError "serve_path"), ⟨[], [], 1⟩) :=
  ⟨by decide,
   (claim10_missing_serve_path toyEnv 1 "c" "/srv/a.mp4" [] ⟨[], [], 1⟩
     (by decide)).1⟩

/-- Claim C7, amended.  A present string serve_path filter value that
fails to compile makes validate_list_filters raise the builtin
ValueError, which is not the ContentException class used by the other
validation failures such as the unknown-key InvalidFilter error; every
serve_path value that compiles passes the check. -/
theorem claim7_regex_validation (env : Env) (filters : Dict) (p : String)
    (h : dget filters "serve_path" = some (.str p)) :
    (env.regexCompile p = none →
      validate_list_filters env filters
        = .error (.valueError
            ("Invalid regular expression for serve_path: " ++ p))
      ∧ ∀ e, validate_list_filters env filters = .error e →
          e.isContentException = false) ∧
    (∀ f, env.regexCompile p = some f →
      ∃ d, validate_list_filters env filters = .ok d) := by
  have hk : hasKey filters "serve_path" = true := hasKey_of_dget_some h
  have h1 : dget (ddel filters "count") "count" = none :=
    dget_ddel_self filters "count"
  have h2 : dget (ddel filters "count") "serve_path" = some (.str p) := by
    rw [dget_ddel_ne filters "count" "serve_path" (by decide)]
    exact h
  unfold validate_list_filters
  simp only [hk, Bool.true_or, if_true, h1, h2]
  constructor
  · intro hc
    simp only [hc]
    refine ⟨by trivial, ?_⟩
    intro e he
    rw [← Except.error.inj he]
    rfl
  · intro f hc
    simp only [hc]
    exact ⟨_, rfl⟩

/-- Counterexample to claim C7 as stated: at the concrete invalid
pattern consisting of one opening parenthesis, the raised error is the
builtin ValueError, not the structured ContentException domain error
used for the other validation failures. -/
theorem claim7_counterexample :
    validate_list_filters toyEnv [("serve_path", Value.str "(")]
      = .error (.valueError "Invalid regular expression for serve_path: (")
    ∧ (∀ m, validate_list_filters toyEnv [("serve_path", Value.str "(")]
        ≠ .error (.invalidFilter m))
    ∧ (PyErr.valueError
        "Invalid regular expression for serve_path: (").isContentException
        = false := by
  refine ⟨rfl, ?_, rfl⟩
  intro m hm
  rw [show validate_list_filters toyEnv [("serve_path", Value.str "(")]
      = .error (.valueError
          "Invalid regular expression for serve_path: (") from rfl] at hm
  exact PyErr.noConfusion (Except.error.inj hm)

/-- Witness for claim C7 at concrete patterns: a compiling pattern
passes and the non-compiling parenthesis pattern raises ValueError. -/
theorem claim7_witness :
    (∃ d, validate_list_filters toyEnv [("serve_path", Value.str "x")]
        = .ok d)
    ∧ validate_list_filters toyEnv [("serve_path", Value.str "(")]
        = .error (.valueError
            "Invalid regular expression for serve_path: (") :=
  ⟨(claim7_regex_validation toyEnv [("serve_path", Value.str "x")] "x"
      (by decide)).2 (toyMatch "x") rfl,
   ((claim7_regex_validation toyEnv [("serve_path", Value.str "(")] "("
      (by decide)).1 rfl).1⟩

/-- Claim C9, amended.  The REGEXP predicate never raises: it is a total
function into an optional boolean.  When the expression compiles, the
result is the boolean saying whether the pattern search succeeds on the
item; when compilation fails, the result is None, the Python null, not
the boolean False, and the serve_path filter built on it then rejects
every row, so the null behaves as false in the WHERE clause. -/
theorem claim9_regexp_operator (env : Env) (p s : String) (e : Entry) :
    (∀ f, env.regexCompile p = some f →
      regexp_operator env (.str p) (.str s) = some (f s)) ∧
    (env.regexCompile p = none →
      regexp_operator env (.str p) (.str s) = none
      ∧ regexp_operator env (.str p) (.str s) ≠ some false
      ∧ filterPred env "serve_path" (.str p) e = false) := by
  constructor
  · intro f hc
    simp [regexp_operator, hc]
  · intro hc
    have h0 : regexp_operator env (.str p) (.str s) = none := by
      simp [regexp_operator, hc]
    refine ⟨h0, ?_, ?_⟩
    · rw [h0]
      exact fun hh => Option.noConfusion hh
    · simp [filterPred, regexp_operator, hc]

/-- Counterexample to claim C9 as stated: on the non-compiling pattern
the predicate returns None rather than the boolean False. -/
theorem claim9_counterexample :
    regexp_operator toyEnv (.str "(") (.str "abc") = none
    ∧ regexp_operator toyEnv (.str "(") (.str "abc")
        ≠ some false := by
  refine ⟨rfl, ?_⟩
  intro h
  rw [show regexp_operator toyEnv (.str "(") (.str "abc") = none
      from rfl] at h
  exact Option.noConfusion h

/-- Witness for claim C9 at concrete inputs: a compiling pattern yields
the search result and the non-compiling pattern yields None. -/
theorem claim9_witness :
    regexp_operator toyEnv (.str "v1") (.str "xv1y")
      = some (toyMatch "v1" "xv1y")
    ∧ regexp_operator toyEnv (.str "(") (.str "z") = none :=
  ⟨(claim9_regexp_operator toyEnv "v1" "xv1y"
      ⟨Value.null, Value.null, Value.null, Value.null, Value.null,
       Value.null, Value.null, Value.null, Value.null⟩).1
      (toyMatch "v1") rfl,
   ((claim9_regexp_operator toyEnv "(" "z"
      ⟨Value.null, Value.null, Value.null, Value.null, Value.null,
       Value.null, Value.null, Value.null, Value.null⟩).2 rfl).1⟩

/-- Claim C1, amended.  With a serve_path key present, add_file fails
with the DuplicateEntry ContentException exactly when some entry whose
alive column is SQL true has a serve_path in which the supplied
serve_path value, interpreted as a regular expression by the backend
REGEXP predicate, finds a match.  Equality of serve_path values is
neither necessary nor sufficient for the regex search, so the duplicate
check is wider than exact equality; soft-deleted entries never trigger
it, so re-adding a serve_path after its only alive holder is deleted
passes the check. -/
theorem claim1_duplicate_iff (env : Env) (now : Int)
    (client path : String) (params : Dict) (db : DB) (sp : Value)
    (h : dget params "serve_path" = some sp) :
    (add_file env now client path params db).1
        = .error (.duplicateEntry (dupMsg sp))
      ↔ ∃ x, x ∈ db.content ∧ sqlEq x.alive (Value.int 1) = true ∧
          (regexp_operator env sp x.serve_path).getD false = true := by
  have hex := existsEntry_serve env db sp
  have hAny : (db.content.any (fun x =>
      (regexp_operator env sp x.serve_path).getD false
        && sqlEq x.alive (Value.int 1)) = true)
      ↔ ∃ x, x ∈ db.content ∧ sqlEq x.alive (Value.int 1) = true ∧
          (regexp_operator env sp x.serve_path).getD false = true := by
    rw [List.any_eq_true]
    constructor
    · rintro ⟨x, hx, hp⟩
      rw [Bool.and_eq_true] at hp
      exact ⟨x, hx, hp.2, hp.1⟩
    · rintro ⟨x, hx, h1, h2⟩
      exact ⟨x, hx, by rw [Bool.and_eq_true]; exact ⟨h2, h1⟩⟩
  cases hb : db.content.any (fun x =>
      (regexp_operator env sp x.serve_path).getD false
        && sqlEq x.alive (Value.int 1)) with
  | true =>
    have hres : (add_file env now client path params db).1
        = .error (.duplicateEntry (dupMsg sp)) := by
      unfold add_file
      simp only [h, hex, hb]
    exact iff_of_true hres (hAny.mp hb)
  | false =>
    have hne : ¬ ∃ x, x ∈ db.content ∧ sqlEq x.alive (Value.int 1) = true ∧
        (regexp_operator env sp x.serve_path).getD false = true := by
      intro he
      have h2 := hAny.mpr he
      rw [hb] at h2
      exact Bool.noConfusion h2
    refine iff_of_false ?_ hne
    intro hres
    unfold add_file at hres
    simp only [h, hex, hb] at hres
    cases hv : validateParams env params with
    | error e =>
      simp only [hv] at hres
      rcases validateParams_err_shape env params e hv with
        ⟨m, rfl⟩ | ⟨m, rfl⟩ <;>
        exact PyErr.noConfusion (Except.error.inj hres)
    | ok u =>
      cases u
      simp only [hv] at hres
      cases ha : _add_file env now path params db with
      | error e =>
        simp only [ha] at hres
        rcases _add_file_err_shape env now path params db e ha with
          ⟨m, rfl⟩ | ⟨m, rfl⟩ <;>
          exact PyErr.noConfusion (Except.error.inj hres)
      | ok pr =>
        obtain ⟨idv, db1⟩ := pr
        simp only [ha, get_file_id] at hres
        exact Except.noConfusion hres

/-- Counterexample to claim C1 as stated: the registry holds one alive
entry with serve_path /videos/ab and no entry at all with serve_path
/videos/a, yet adding serve_path /videos/a fails with DuplicateEntry,
because the duplicate check is a regex search, not an equality test. -/
theorem claim1_counterexample :
    (add_file toyEnv 9 "cli" "/srv/b.mp4"
        [("serve_path", Value.str "/videos/a"),
         ("path", Value.str "/srv/b.mp4")]
        ⟨[⟨Value.int 1, Value.str "/srv/a.mp4", Value.int 3, Value.int 1,
           Value.int 1, Value.null, Value.null, Value.str "/videos/ab",
           Value.int 1⟩], [], 2⟩).1
      = .error (.duplicateEntry
          "File at serve_path /videos/a already exists.")
    ∧ ∀ x ∈ ([⟨Value.int 1, Value.str "/srv/a.mp4", Value.int 3,
          Value.int 1, Value.int 1, Value.null, Value.null,
          Value.str "/videos/ab", Value.int 1⟩] : List Entry),
        ¬ x.serve_path = Value.str "/videos/a" := by
  constructor
  · rfl
  · decide

/-- Witness for claim C1: with one alive entry holding serve_path v1,
adding serve_path v1 again fails with DuplicateEntry. -/
theorem claim1_witness :
    (add_file toyEnv 9 "c" "/srv/b.mp4" [("serve_path", Value.str "v1")]
        ⟨[⟨Value.int 1, Value.str "/srv/a.mp4", Value.int 3, Value.int 1,
           Value.int 1, Value.null, Value.null, Value.str "v1",
           Value.int 1⟩], [], 2⟩).1
      = .error (.duplicateEntry "File at serve_path v1 already exists.") :=
  (claim1_duplicate_iff toyEnv 9 "c" "/srv/b.mp4"
      [("serve_path", Value.str "v1")]
      ⟨[⟨Value.int 1, Value.str "/srv/a.mp4", Value.int 3, Value.int 1,
         Value.int 1, Value.null, Value.null, Value.str "v1",
         Value.int 1⟩], [], 2⟩
      (Value.str "v1") (by decide)).mpr (by decide)

/-- Claim C2, amended.  update_file and delete_file raise the NotFound
ContentException exactly when no entry with the given id and an alive
column equal to SQL true exists: the existence check runs through
exists, which forces alive into the filters, so a soft-deleted entry
does not count and updating or deleting it raises NotFound. -/
theorem claim2_notfound_iff (env : Env) (now : Int) (client : String)
    (idv : Value) (params : Dict) (db : DB) :
    ((update_file env now client idv params db).1
        = .error (.notFound (nfMsg idv))
      ↔ ¬ ∃ x, x ∈ db.content ∧ sqlEq x.id (toSql idv) = true ∧
          sqlEq x.alive (Value.int 1) = true) ∧
    ((delete_file env now client idv db).1
        = .error (.notFound (nfMsg idv))
      ↔ ¬ ∃ x, x ∈ db.content ∧ sqlEq x.id (toSql idv) = true ∧
          sqlEq x.alive (Value.int 1) = true) := by
  have hex := existsEntry_id env db idv
  have hAny : (db.content.any (fun x =>
      sqlEq x.id (toSql idv) && sqlEq x.alive (Value.int 1)) = true)
      ↔ ∃ x, x ∈ db.content ∧ sqlEq x.id (toSql idv) = true ∧
          sqlEq x.alive (Value.int 1) = true := by
    rw [List.any_eq_true]
    constructor
    · rintro ⟨x, hx, hp⟩
      rw [Bool.and_eq_true] at hp
      exact ⟨x, hx, hp.1, hp.2⟩
    · rintro ⟨x, hx, h1, h2⟩
      exact ⟨x, hx, by rw [Bool.and_eq_true]; exact ⟨h1, h2⟩⟩
  cases hb : db.content.any (fun x =>
      sqlEq x.id (toSql idv) && sqlEq x.alive (Value.int 1)) with
  | false =>
    have hne : ¬ ∃ x, x ∈ db.content ∧ sqlEq x.id (toSql idv) = true ∧
        sqlEq x.alive (Value.int 1) = true := by
      intro he
      have h2 := hAny.mpr he
      rw [hb] at h2
      exact Bool.noConfusion h2
    constructor
    · refine iff_of_true ?_ hne
      unfold update_file
      simp only [hex, hb]
    · refine iff_of_true ?_ hne
      unfold delete_file
      simp only [hex, hb]
  | true =>
    have hpos := hAny.mp hb
    constructor
    · refine iff_of_false ?_ (fun hcon => absurd hpos hcon)
      intro hupd
      unfold update_file at hupd
      simp only [hex, hb] at hupd
      cases hv : validateParams env params with
      | error e =>
        simp only [hv] at hupd
        rcases validateParams_err_shape env params e hv with
          ⟨m, rfl⟩ | ⟨m, rfl⟩ <;>
          exact PyErr.noConfusion (Except.error.inj hupd)
      | ok u =>
        cases u
        simp only [hv] at hupd
        cases hu : _update_file env now idv params db with
        | error e =>
          simp only [hu] at hupd
          rcases _update_file_err_shape env now idv params db e hu with
            ⟨m, rfl⟩ | ⟨m, rfl⟩ <;>
            exact PyErr.noConfusion (Except.error.inj hupd)
        | ok pr =>
          obtain ⟨d2, db1⟩ := pr
          simp only [hu, get_file_id] at hupd
          exact Except.noConfusion hupd
    · refine iff_of_false ?_ (fun hcon => absurd hpos hcon)
      intro hdel
      unfold delete_file at hdel
      simp only [hex, hb] at hdel
      exact Except.noConfusion hdel

/-- Counterexample to claim C2 as stated: the registry retains the
soft-deleted row with id 1 (alive is SQL false), yet both update_file
and delete_file on id 1 raise NotFound. -/
theorem claim2_counterexample :
    (update_file toyEnv 70 "cli" (Value.int 1)
        [("category", Value.str "x")]
        ⟨[⟨Value.int 1, Value.str "/srv/a.mp4", Value.int 3, Value.int 1,
           Value.int 1, Value.null, Value.null, Value.str "v1",
           Value.int 0⟩], [], 2⟩).1
      = .error (.notFound "File with id 1 does not exist.")
    ∧ (delete_file toyEnv 70 "cli" (Value.int 1)
        ⟨[⟨Value.int 1, Value.str "/srv/a.mp4", Value.int 3, Value.int 1,
           Value.int 1, Value.null, Value.null, Value.str "v1",
           Value.int 0⟩], [], 2⟩).1
      = .error (.notFound "File with id 1 does not exist.")
    ∧ ∃ x ∈ ([⟨Value.int 1, Value.str "/srv/a.mp4", Value.int 3,
          Value.int 1, Value.int 1, Value.null, Value.null,
          Value.str "v1", Value.int 0⟩] : List Entry),
        x.id = Value.int 1 := by
  refine ⟨rfl, rfl, ?_⟩
  decide

/-- Witness for claim C2: on the empty registry, update_file and
delete_file on id 1 raise NotFound. -/
theorem claim2_witness :
    (update_file toyEnv 1 "c" (Value.int 1) [] ⟨[], [], 1⟩).1
      = .error (.notFound "File with id 1 does not exist.")
    ∧ (delete_file toyEnv 1 "c" (Value.int 1) ⟨[], [], 1⟩).1
      = .error (.notFound "File with id 1 does not exist.") :=
  ⟨(claim2_notfound_iff toyEnv 1 "c" (Value.int 1) [] ⟨[], [], 1⟩).1.mpr
      (by decide),
   (claim2_notfound_iff toyEnv 1 "c" (Value.int 1) [] ⟨[], [], 1⟩).2.mpr
      (by decide)⟩

theorem list_files_default (env : Env) (db : DB) :
    list_files env db []
      = .ok (((db.content.filter (fun e => sqlEq e.alive (Value.int 1))
          ).take 100).map processEntry) := by
  have hf : rowPred env [("count", Value.int 100)]
      = fun e => sqlEq e.alive (Value.int 1) := by
    funext e
    simp [rowPred, ddel, hasKey]
  have h0 : list_files env db []
      = .ok ((sqlLimit (Value.int 100)
          (db.content.filter (rowPred env [("count", Value.int 100)]))
          ).map processEntry) := rfl
  rw [h0, hf]
  rfl

theorem list_files_default_alive (env : Env) (db : DB) :
    ∃ l, list_files env db [] = .ok l
      ∧ ∀ x ∈ l, x.alive = Value.bool true := by
  refine ⟨_, list_files_default env db, ?_⟩
  intro x hx
  rw [List.mem_map] at hx
  obtain ⟨y, hy, rfl⟩ := hx
  have hy2 : y ∈ db.content.filter (fun e => sqlEq e.alive (Value.int 1)) :=
    List.take_subset _ _ hy
  have h3 := (List.mem_filter.mp hy2).2
  have halive := sqlEq_eq h3
  show (processEntry y).alive = Value.bool true
  simp [processEntry, halive, Value.truthy]

/-- Claim C5.  A successful delete never removes the row: the content
table is the old table with exactly the alive and modified columns of
the target row rewritten; a delete audit record is appended; list_files
with the default filters returns only entries whose alive flag is true;
get_file on the id returns absent; and get_file with alive explicitly
false returns the soft-deleted entry. -/
theorem claim5_soft_delete (env : Env) (now : Int) (client : String)
    (idv : Value) (db : DB) (t : Entry)
    (ht : t ∈ db.content)
    (hid : sqlEq t.id (toSql idv) = true)
    (halive : sqlEq t.alive (Value.int 1) = true)
    (huniq : ∀ x ∈ db.content, sqlEq x.id (toSql idv) = true → x = t) :
    ∃ db2, delete_file env now client idv db = (.ok (), db2) ∧
      db2.content = db.content.map (fun x =>
        if sqlEq x.id (toSql idv) = true then
          { x with alive := Value.int 0, modified := Value.int now }
        else x) ∧
      db2.history = db.history ++
        [{ file_id := toSql idv, client_name := client,
           action := "delete", action_params := "", timestamp := now }] ∧
      (∃ l, list_files env db2 [] = .ok l
        ∧ ∀ x ∈ l, x.alive = Value.bool true) ∧
      get_file env db2 [("id", idv)] = .ok none ∧
      (∃ x, get_file env db2 [("id", idv), ("alive", Value.bool false)]
          = .ok (some x) ∧ x.alive = Value.bool false ∧
          sqlEq x.id (toSql idv) = true) := by
  have hex := existsEntry_id env db idv
  have hb : db.content.any (fun x =>
      sqlEq x.id (toSql idv) && sqlEq x.alive (Value.int 1)) = true :=
    List.any_eq_true.mpr
      ⟨t, ht, by rw [Bool.and_eq_true]; exact ⟨hid, halive⟩⟩
  have hfun : (fun e => if sqlEq e.id (toSql idv) = true then
        applyCols e (process_content_data
          [("id", idv), ("alive", Value.bool false),
           ("modified", Value.int now)]) else e)
      = (fun x => if sqlEq x.id (toSql idv) = true then
          { x with alive := Value.int 0, modified := Value.int now }
        else x) := by
    funext x
    by_cases hc : sqlEq x.id (toSql idv) = true
    · simp only [if_pos hc]
      have hxid := sqlEq_eq hc
      obtain ⟨xid, xp, xs, xu, xm, xc, xe, xsp, xa⟩ := x
      simp only at hxid
      rw [hxid]
      exact rfl
    · simp only [if_neg hc]
  have hcontent : (record_action (update_content db
      [("id", idv), ("alive", Value.bool false),
       ("modified", Value.int now)]) idv client "delete" "" now).content
      = db.content.map (fun x =>
          if sqlEq x.id (toSql idv) = true then
            { x with alive := Value.int 0, modified := Value.int now }
          else x) := by
    exact congrArg (fun f => db.content.map f) hfun
  refine ⟨record_action (update_content db
      [("id", idv), ("alive", Value.bool false),
       ("modified", Value.int now)]) idv client "delete" "" now,
    ?_, hcontent, rfl, list_files_default_alive env _, ?_, ?_⟩
  · unfold delete_file
    simp only [hex, hb]
  · rw [get_file_id, hcontent]
    have hnil : ((db.content.map (fun x =>
        if sqlEq x.id (toSql idv) = true then
          { x with alive := Value.int 0, modified := Value.int now }
        else x)).filter (fun x =>
          sqlEq x.id (toSql idv) && sqlEq x.alive (Value.int 1))) = [] := by
      rw [List.filter_eq_nil_iff]
      intro a ha
      rw [List.mem_map] at ha
      obtain ⟨y, hy, rfl⟩ := ha
      by_cases hc : sqlEq y.id (toSql idv) = true
      · simp only [if_pos hc]
        intro hp
        rw [Bool.and_eq_true] at hp
        have h2 : sqlEq (Value.int 0) (Value.int 1) = true := hp.2
        exact absurd h2 (by decide)
      · simp only [if_neg hc]
        intro hp
        rw [Bool.and_eq_true] at hp
        exact hc hp.1
    rw [hnil]
    rfl
  · rw [get_file_id_alive_false, hcontent]
    rw [List.filter_map]
    have hcomp : ((fun x : Entry =>
        sqlEq x.id (toSql idv) && sqlEq x.alive (Value.int 0)) ∘
        (fun x : Entry => if sqlEq x.id (toSql idv) = true then
          { x with alive := Value.int 0, modified := Value.int now }
        else x))
        = fun y : Entry => sqlEq y.id (toSql idv) := by
      funext y
      simp only [Function.comp]
      by_cases hc : sqlEq y.id (toSql idv) = true
      · rw [if_pos hc]
        show (sqlEq y.id (toSql idv)
          && sqlEq (Value.int 0) (Value.int 0)) = sqlEq y.id (toSql idv)
        rw [hc]
        rfl
      · rw [if_neg hc]
        have hcf : sqlEq y.id (toSql idv) = false := by
          cases hcc : sqlEq y.id (toSql idv)
          · rfl
          · exact absurd hcc hc
        rw [hcf]
        rfl
    rw [hcomp]
    cases hpeek : (db.content.filter
        (fun y => sqlEq y.id (toSql idv))).head? with
    | none =>
      exfalso
      have hmem : t ∈ db.content.filter (fun y => sqlEq y.id (toSql idv)) :=
        List.mem_filter.mpr ⟨ht, hid⟩
      cases hl : db.content.filter (fun y => sqlEq y.id (toSql idv)) with
      | nil =>
        rw [hl] at hmem
        exact absurd hmem (List.not_mem_nil t)
      | cons a l =>
        rw [hl] at hpeek
        exact Option.noConfusion hpeek
    | some z =>
      have hzmem : z ∈ db.content.filter
          (fun y => sqlEq y.id (toSql idv)) := by
        cases hl : db.content.filter (fun y => sqlEq y.id (toSql idv)) with
        | nil =>
          rw [hl] at hpeek
          exact Option.noConfusion hpeek
        | cons a l =>
          rw [hl] at hpeek
          have haz := Option.some.inj hpeek
          rw [← haz]
          exact List.mem_cons_self a l
      have hz2 := List.mem_filter.mp hzmem
      have hzt : z = t := huniq z hz2.1 hz2.2
      subst hzt
      refine ⟨processEntry
        { z with alive := Value.int 0, modified := Value.int now },
        ?_, ?_, ?_⟩
      · rw [List.head?_map, hpeek]
        simp [hid]
      · simp [processEntry, Value.truthy]
      · simpa using hid

/-- Witness for claim C5 at a concrete registry with one alive entry:
the delete succeeds, the default listing hides the row, get_file on the
id is absent, and the frame equalities hold. -/
theorem claim5_witness :
    ∃ db2, delete_file toyEnv 7 "c" (Value.int 1)
        ⟨[⟨Value.int 1, Value.str "/srv/a.mp4", Value.int 3, Value.int 1,
           Value.int 1, Value.null, Value.null, Value.str "v1",
           Value.int 1⟩], [], 2⟩ = (.ok (), db2)
      ∧ get_file toyEnv db2 [("id", Value.int 1)] = .ok none
      ∧ (∃ l, list_files toyEnv db2 [] = .ok l
          ∧ ∀ x ∈ l, x.alive = Value.bool true) := by
  obtain ⟨db2, h1, _, _, h4, h5, _⟩ :=
    claim5_soft_delete toyEnv 7 "c" (Value.int 1)
      ⟨[⟨Value.int 1, Value.str "/srv/a.mp4", Value.int 3, Value.int 1,
         Value.int 1, Value.null, Value.null, Value.str "v1",
         Value.int 1⟩], [], 2⟩
      ⟨Value.int 1, Value.str "/srv/a.mp4", Value.int 3, Value.int 1,
       Value.int 1, Value.null, Value.null, Value.str "v1", Value.int 1⟩
      (by decide) (by decide) (by decide) (by decide)
  exact ⟨db2, h1, h5, h4⟩

theorem ddel_ddel (d : Dict) (k : String) :
    ddel (ddel d k) k = ddel d k := by
  induction d with
  | nil => rfl
  | cons p rest ih =>
    by_cases hp : p.1 = k <;> simp [ddel, hp, ih]

theorem hasKey_ddel_ne (d : Dict) (k k' : String) (h : k' ≠ k) :
    hasKey (ddel d k) k' = hasKey d k' := by
  induction d with
  | nil => rfl
  | cons p rest ih =>
    by_cases hp : p.1 = k
    · subst hp
      have h2 : (p.1 == k') = false := by
        simp
        exact fun hh => h hh.symm
      simp [ddel, hasKey, h2, ih]
    · simp [ddel, hasKey, hp, ih]

theorem rowPred_ddel_count (env : Env) (filters : Dict) :
    rowPred env (ddel filters "count") = rowPred env filters := by
  funext e
  unfold rowPred
  rw [ddel_ddel, hasKey_ddel_ne filters "count" "alive" (by decide)]

/-- Claim C6.  Caller filters are merged over the default count of one
hundred.  When serve_path or since is present, the count limit is
removed entirely and the listing returns every row matching the
predicates, untruncated.  Otherwise a supplied integer count is clamped
with min against one thousand, and for a nonnegative supplied count the
listing returns at most that clamped number of rows; in particular a
count of five thousand yields at most one thousand rows, and with no
caller count the default count of one hundred applies. -/
theorem claim6_count_clamp (env : Env) (db : DB) (kwargs : Dict)
    (hvalid : ∀ k ∈ dkeys kwargs, k ∈ VALID_FILTERS)
    (hnd : (dkeys kwargs).Nodup) :
    ((hasKey kwargs "serve_path" || hasKey kwargs "since") = true →
      ∀ l, list_files env db kwargs = .ok l →
        l.length = (db.content.filter
          (rowPred env (dupdate default_filters kwargs))).length) ∧
    ((hasKey kwargs "serve_path" || hasKey kwargs "since") = false →
      ∀ n : Int, dget kwargs "count" = some (.int n) →
        validate_list_filters env (dupdate default_filters kwargs)
          = .ok (dset (dupdate default_filters kwargs) "count"
              (.int (min n 1000)))
        ∧ (0 ≤ n → ∀ l, list_files env db kwargs = .ok l →
            l.length ≤ (min n 1000).toNat)) ∧
    (∀ l, list_files env db [("count", Value.int 5000)] = .ok l →
      l.length ≤ 1000) := by
  have hspc : hasKey (dupdate default_filters kwargs) "serve_path"
      = hasKey kwargs "serve_path" := by
    rw [hasKey_dupdate]
    rfl
  have hsnc : hasKey (dupdate default_filters kwargs) "since"
      = hasKey kwargs "since" := by
    rw [hasKey_dupdate]
    rfl
  refine ⟨?_, ?_, ?_⟩
  · intro hkey l hl
    have hm : (hasKey (dupdate default_filters kwargs) "serve_path"
        || hasKey (dupdate default_filters kwargs) "since") = true := by
      rw [hspc, hsnc]
      exact hkey
    simp only [list_files, validate_list_filters] at hl
    rw [hm] at hl
    simp only [if_true] at hl
    rw [dget_ddel_self] at hl
    have hrp := rowPred_ddel_count env (dupdate default_filters kwargs)
    cases hsv : dget (ddel (dupdate default_filters kwargs) "count")
        "serve_path" with
    | none =>
      rw [hsv] at hl
      have hll := Except.ok.inj hl
      rw [← hll]
      unfold get_content
      rw [dget_ddel_self]
      rw [List.length_map, hrp]
    | some v =>
      rw [hsv] at hl
      cases v with
      | str p =>
        cases hc : env.regexCompile p with
        | none =>
          simp only [hc] at hl
          exact Except.noConfusion hl
        | some f =>
          simp only [hc] at hl
          have hll := Except.ok.inj hl
          rw [← hll]
          unfold get_content
          rw [dget_ddel_self]
          rw [List.length_map, hrp]
      | null => simp only [] at hl; exact Except.noConfusion hl
      | int m => simp only [] at hl; exact Except.noConfusion hl
      | bool b => simp only [] at hl; exact Except.noConfusion hl
  · intro hser n hn
    have hser2 : hasKey kwargs "serve_path" = false
        ∧ hasKey kwargs "since" = false := by
      cases h1 : hasKey kwargs "serve_path" with
      | true => rw [h1] at hser; exact Bool.noConfusion hser
      | false =>
        cases h2 : hasKey kwargs "since" with
        | true => rw [h1, h2] at hser; exact Bool.noConfusion hser
        | false => exact ⟨rfl, rfl⟩
    have hm : (hasKey (dupdate default_filters kwargs) "serve_path"
        || hasKey (dupdate default_filters kwargs) "since") = false := by
      rw [hspc, hsnc, hser2.1, hser2.2]
      rfl
    have hcnt : dget (dupdate default_filters kwargs) "count"
        = some (.int n) :=
      dget_dupdate_of_some default_filters kwargs "count" (.int n) hnd hn
    have hsp2 : dget (dupdate default_filters kwargs) "serve_path"
        = none := by
      rw [dget_none_iff_hasKey, hspc]
      exact hser2.1
    have hspset : dget (dset (dupdate default_filters kwargs) "count"
        (valueMin (.int n) (.int 1000))) "serve_path" = none := by
      rw [dget_dset_ne _ _ _ _ (by decide)]
      exact hsp2
    have hval : validate_list_filters env (dupdate default_filters kwargs)
        = .ok (dset (dupdate default_filters kwargs) "count"
            (.int (min n 1000))) := by
      unfold validate_list_filters
      rw [hm]
      simp only [Bool.false_eq_true, if_false]
      rw [hcnt]
      simp only [hspset]
      rw [valueMin_int]
    refine ⟨hval, ?_⟩
    intro hpos l hl
    simp only [list_files] at hl
    rw [hval] at hl
    have hll := Except.ok.inj hl
    have hge : ¬ (min n 1000 < 0) := by
      rw [not_lt]
      exact le_min hpos (by norm_num)
    rw [← hll]
    simp only [get_content, dget_dset_self, List.length_map, sqlLimit]
    rw [if_neg hge]
    exact List.length_take_le _ _
  · intro l hl
    have hval : validate_list_filters env
        (dupdate default_filters [("count", Value.int 5000)])
        = .ok [("count", Value.int 1000)] := rfl
    simp only [list_files] at hl
    rw [hval] at hl
    have hll := Except.ok.inj hl
    rw [← hll]
    simp only [get_content,
      show dget [("count", Value.int 1000)] "count"
        = some (Value.int 1000) from rfl,
      List.length_map, sqlLimit]
    rw [if_neg (by norm_num : ¬ ((1000 : Int) < 0))]
    exact List.length_take_le _ _

/-- Witness for claim C6: a caller count of five thousand is clamped to
one thousand by validation and the listing length is bounded by one
thousand. -/
theorem claim6_witness :
    validate_list_filters toyEnv
        (dupdate default_filters [("count", Value.int 5000)])
      = .ok (dset (dupdate default_filters [("count", Value.int 5000)])
          "count" (Value.int (min 5000 1000)))
    ∧ ∀ l, list_files toyEnv ⟨[], [], 1⟩ [("count", Value.int 5000)]
        = .ok l → l.length ≤ 1000 := by
  have h := claim6_count_clamp toyEnv ⟨[], [], 1⟩
    [("count", Value.int 5000)] (by decide) (by decide)
  exact ⟨(h.2.1 (by decide) 5000 (by decide)).1, h.2.2⟩

theorem dget_process_cols (d : Dict) (k : String) (hk : k ∈ COLS) :
    dget (process_content_data d) k = dget d k :=
  dget_strip_of_mem d COLS k hk

/-- Claim C3.  A successful add_file with a fresh serve_path returns
the freshly read entry: its alive flag is true, its uploaded and
modified timestamps both equal the call clock, and its size is the
on-disk size of the file at the path argument; the strip step keeps
only keys of the entity column set, so every other key of params is
absent from the inserted row; and afterwards exactly one add
ActionRecord with empty action params exists for the new id. -/
theorem claim3_add_file_success (env : Env) (now : Int)
    (client path : String) (params : Dict) (db : DB) (sp : Value)
    (sz : Nat)
    (hsp : dget params "serve_path" = some sp)
    (hnoid : dget params "id" = none)
    (hsz : env.fsSize path = some sz)
    (hfresh : db.content.any (fun x =>
        (regexp_operator env sp x.serve_path).getD false
          && sqlEq x.alive (Value.int 1)) = false)
    (hvalid : validateParams env params = .ok ())
    (hidfree : ∀ x ∈ db.content, ¬ x.id = Value.int (db.nextId : Int))
    (hhist : ∀ r ∈ db.history, ¬ r.file_id = Value.int (db.nextId : Int)) :
    ∃ e db2, add_file env now client path params db
        = (.ok (some e), db2) ∧
      e.alive = Value.bool true ∧
      e.uploaded = Value.int now ∧
      e.modified = Value.int now ∧
      e.size = Value.int (sz : Int) ∧
      (∀ k ∈ dkeys (process_content_data params), k ∈ COLS) ∧
      db2.history.filter (fun r =>
          r.file_id == e.id && r.action == "add")
        = [{ file_id := e.id, client_name := client, action := "add",
             action_params := "", timestamp := now }] := by
  have hex := existsEntry_serve env db sp
  have hdid : dget (process_content_data (addData now (sz : Int) params))
      "id" = none := by
    rw [dget_process_cols _ "id" (by decide)]
    unfold addData
    rw [dget_dset_ne _ "size" "id" _ (by decide),
        dget_dset_ne _ "modified" "id" _ (by decide),
        dget_dset_ne _ "uploaded" "id" _ (by decide),
        dget_dset_ne _ "alive" "id" _ (by decide)]
    exact hnoid
  have halv : dget (process_content_data (addData now (sz : Int) params))
      "alive" = some (Value.bool true) := by
    rw [dget_process_cols _ "alive" (by decide)]
    unfold addData
    rw [dget_dset_ne _ "size" "alive" _ (by decide),
        dget_dset_ne _ "modified" "alive" _ (by decide),
        dget_dset_ne _ "uploaded" "alive" _ (by decide),
        dget_dset_self]
  have hupl : dget (process_content_data (addData now (sz : Int) params))
      "uploaded" = some (Value.int now) := by
    rw [dget_process_cols _ "uploaded" (by decide)]
    unfold addData
    rw [dget_dset_ne _ "size" "uploaded" _ (by decide),
        dget_dset_ne _ "modified" "uploaded" _ (by decide),
        dget_dset_self]
  have hmod : dget (process_content_data (addData now (sz : Int) params))
      "modified" = some (Value.int now) := by
    rw [dget_process_cols _ "modified" (by decide)]
    unfold addData
    rw [dget_dset_ne _ "size" "modified" _ (by decide),
        dget_dset_self]
  have hsiz : dget (process_content_data (addData now (sz : Int) params))
      "size" = some (Value.int (sz : Int)) := by
    rw [dget_process_cols _ "size" (by decide)]
    unfold addData
    rw [dget_dset_self]
  have hadd : _add_file env now path params db
      = .ok (Value.int (db.nextId : Int),
        { db with
          content := db.content ++ [buildEntry (process_content_data (addData now (sz : Int) params)) (Value.int (db.nextId : Int))],
          nextId := db.nextId + 1 }) := by
    unfold _add_file
    simp only [hsz]
    unfold add_content
    rw [hdid]
  have hE0alive : (buildEntry (process_content_data
      (addData now (sz : Int) params))
      (Value.int (db.nextId : Int))).alive = Value.int 1 := by
    show toSql ((dget (process_content_data
      (addData now (sz : Int) params)) "alive").getD Value.null)
      = Value.int 1
    rw [halv]
    rfl
  have hfilter : ((db.content ++
      [buildEntry (process_content_data (addData now (sz : Int) params))
        (Value.int (db.nextId : Int))]).filter (fun x =>
        sqlEq x.id (toSql (Value.int (db.nextId : Int)))
          && sqlEq x.alive (Value.int 1)))
      = [buildEntry (process_content_data (addData now (sz : Int) params))
          (Value.int (db.nextId : Int))] := by
    rw [List.filter_append]
    have h1 : db.content.filter (fun x =>
        sqlEq x.id (toSql (Value.int (db.nextId : Int)))
          && sqlEq x.alive (Value.int 1)) = [] := by
      rw [List.filter_eq_nil_iff]
      intro a ha hp
      rw [Bool.and_eq_true] at hp
      have h2 := sqlEq_eq hp.1
      exact hidfree a ha h2
    rw [h1, List.nil_append]
    have h2 : (fun x => sqlEq x.id (toSql (Value.int (db.nextId : Int)))
        && sqlEq x.alive (Value.int 1))
        (buildEntry (process_content_data (addData now (sz : Int) params))
          (Value.int (db.nextId : Int))) = true := by
      rw [Bool.and_eq_true]
      constructor
      · show sqlEq (Value.int (db.nextId : Int))
          (toSql (Value.int (db.nextId : Int))) = true
        simp [sqlEq, toSql]
      · rw [hE0alive]
        rfl
    simp [List.filter_cons, h2]
  have hgf : get_file env (record_action
      { db with
        content := db.content ++ [buildEntry (process_content_data (addData now (sz : Int) params)) (Value.int (db.nextId : Int))],
        nextId := db.nextId + 1 }
      (Value.int (db.nextId : Int)) client "add" "" now)
      [("id", Value.int (db.nextId : Int))]
      = .ok (some (processEntry
          (buildEntry (process_content_data (addData now (sz : Int) params))
            (Value.int (db.nextId : Int))))) := by
    rw [get_file_id]
    rw [show (record_action
      { db with
        content := db.content ++ [buildEntry (process_content_data (addData now (sz : Int) params)) (Value.int (db.nextId : Int))],
        nextId := db.nextId + 1 }
      (Value.int (db.nextId : Int)) client "add" "" now).content
      = db.content ++ [buildEntry (process_content_data (addData now (sz : Int) params)) (Value.int (db.nextId : Int))] from rfl]
    rw [hfilter]
    rfl
  have hmain : add_file env now client path params db
      = (.ok (some (processEntry
          (buildEntry (process_content_data (addData now (sz : Int) params))
            (Value.int (db.nextId : Int))))),
         record_action
          { db with
            content := db.content ++ [buildEntry (process_content_data (addData now (sz : Int) params)) (Value.int (db.nextId : Int))],
            nextId := db.nextId + 1 }
          (Value.int (db.nextId : Int)) client "add" "" now) := by
    unfold add_file
    simp only [hsp, hex, hfresh, hvalid, hadd, hgf]
  refine ⟨processEntry
      (buildEntry (process_content_data (addData now (sz : Int) params))
        (Value.int (db.nextId : Int))),
    record_action
      { db with
        content := db.content ++ [buildEntry (process_content_data (addData now (sz : Int) params)) (Value.int (db.nextId : Int))],
        nextId := db.nextId + 1 }
      (Value.int (db.nextId : Int)) client "add" "" now,
    hmain, ?_, ?_, ?_, ?_, ?_, ?_⟩
  · show Value.bool ((buildEntry (process_content_data
      (addData now (sz : Int) params))
      (Value.int (db.nextId : Int))).alive.truthy) = Value.bool true
    rw [hE0alive]
    rfl
  · show toSql ((dget (process_content_data
      (addData now (sz : Int) params)) "uploaded").getD Value.null)
      = Value.int now
    rw [hupl]
    rfl
  · show toSql ((dget (process_content_data
      (addData now (sz : Int) params)) "modified").getD Value.null)
      = Value.int now
    rw [hmod]
    rfl
  · show toSql ((dget (process_content_data
      (addData now (sz : Int) params)) "size").getD Value.null)
      = Value.int (sz : Int)
    rw [hsiz]
    rfl
  · exact fun k hk => dkeys_strip_mem params COLS k hk
  · show (db.history ++
        [({ file_id := toSql (Value.int (db.nextId : Int)),
            client_name := client, action := "add", action_params := "",
            timestamp := now } : ActionRecord)]).filter _ = _
    rw [List.filter_append]
    have h1 : db.history.filter (fun r =>
        r.file_id == (processEntry (buildEntry (process_content_data
          (addData now (sz : Int) params))
          (Value.int (db.nextId : Int)))).id
        && r.action == "add") = [] := by
      rw [List.filter_eq_nil_iff]
      intro r hr hp
      rw [Bool.and_eq_true] at hp
      have h2 : r.file_id = Value.int (db.nextId : Int) := eq_of_beq hp.1
      exact hhist r hr h2
    rw [h1, List.nil_append]
    have h2 : ((fun r : ActionRecord => r.file_id == (processEntry (buildEntry
        (process_content_data (addData now (sz : Int) params))
        (Value.int (db.nextId : Int)))).id && r.action == "add")
        ({ file_id := toSql (Value.int (db.nextId : Int)),
           client_name := client, action := "add", action_params := "",
           timestamp := now } : ActionRecord)) = true := by
      rw [Bool.and_eq_true]
      constructor
      · show (toSql (Value.int (db.nextId : Int))
          == Value.int (db.nextId : Int)) = true
        simp [toSql]
      · simp
    rw [List.filter_cons, if_pos h2]
    rfl

/-- Witness for claim C3: adding a file of size three to the empty
registry succeeds with the expected entry and exactly one add record. -/
theorem claim3_witness :
    ∃ e db2, add_file toyEnv 10 "cli" "/srv/a.mp4"
        [("serve_path", Value.str "v1"), ("path", Value.str "/srv/a.mp4")]
        ⟨[], [], 1⟩ = (.ok (some e), db2) ∧
      e.alive = Value.bool true ∧
      e.uploaded = Value.int 10 ∧
      e.modified = Value.int 10 ∧
      e.size = Value.int ((3 : Nat) : Int) ∧
      (∀ k ∈ dkeys (process_content_data
        [("serve_path", Value.str "v1"),
         ("path", Value.str "/srv/a.mp4")]), k ∈ COLS) ∧
      db2.history.filter (fun r =>
          r.file_id == e.id && r.action == "add")
        = [{ file_id := e.id, client_name := "cli", action := "add",
             action_params := "", timestamp := 10 }] :=
  claim3_add_file_success toyEnv 10 "cli" "/srv/a.mp4"
    [("serve_path", Value.str "v1"), ("path", Value.str "/srv/a.mp4")]
    ⟨[], [], 1⟩ (Value.str "v1") 3
    (by decide) (by decide) (by decide) (by decide) (by rfl)
    (by decide) (by decide)

theorem entrySet_modified_self (e : Entry) (v : Value) :
    (entrySet e "modified" v).modified = v := rfl

theorem applyCols_modified_of_get (d : Dict) (e : Entry) (v : Value)
    (hnd : (dkeys d).Nodup) (hv : dget d "modified" = some v) :
    (applyCols e d).modified = toSql v := by
  induction d generalizing e with
  | nil => exact Option.noConfusion hv
  | cons p rest ih =>
    simp only [dkeys, List.map_cons, List.nodup_cons] at hnd
    by_cases hp : p.1 = "modified"
    · simp only [dget, if_pos hp] at hv
      have hveq := Option.some.inj hv
      have hrest : ¬ "modified" ∈ dkeys rest := by
        rw [show dkeys rest = List.map (fun q => q.1) rest from rfl,
          ← hp]
        exact hnd.1
      calc (applyCols e (p :: rest)).modified
          = (applyCols (entrySet e p.1 (toSql p.2)) rest).modified := rfl
        _ = (entrySet e p.1 (toSql p.2)).modified :=
            applyCols_modified_of_not_mem rest _ hrest
        _ = toSql v := by rw [hp, entrySet_modified_self, hveq]
    · simp only [dget, if_neg hp] at hv
      calc (applyCols e (p :: rest)).modified
          = (applyCols (entrySet e p.1 (toSql p.2)) rest).modified := rfl
        _ = toSql v := ih _ hnd.2 hv

theorem dkeys_dset_nodup (d : Dict) (k : String) (v : Value)
    (h : (dkeys d).Nodup) : (dkeys (dset d k v)).Nodup := by
  rw [dkeys_dset]
  by_cases hk : hasKey d k = true
  · simp only [hk, if_true]
    exact h
  · have hk2 : hasKey d k = false := by
      cases hh : hasKey d k
      · rfl
      · exact absurd hh hk
    simp only [hk2, Bool.false_eq_true, if_false]
    rw [List.nodup_append]
    refine ⟨h, List.nodup_singleton k, ?_⟩
    intro a ha hb
    rw [List.mem_singleton] at hb
    subst hb
    exact absurd ((mem_dkeys d a).mp ha) (by rw [hk2]; exact Bool.noConfusion)

theorem dkeys_strip_nodup (d : Dict) (cols : List String)
    (h : (dkeys d).Nodup) : (dkeys (strip_extra d cols)).Nodup := by
  have hsub : List.Sublist (strip_extra d cols) d := List.filter_sublist d
  have h2 : List.Sublist (dkeys (strip_extra d cols)) (dkeys d) := by
    show List.Sublist
      (List.map (fun p : String × Value => p.1) (strip_extra d cols))
      (List.map (fun p : String × Value => p.1) d)
    exact hsub.map _
  exact h.sublist h2

theorem dkeys_strip_sub (d : Dict) (cols : List String) (k : String)
    (hk : k ∈ dkeys (strip_extra d cols)) : k ∈ dkeys d := by
  simp only [dkeys, strip_extra, List.mem_map] at hk ⊢
  obtain ⟨p, hp, rfl⟩ := hk
  exact ⟨p, (List.mem_filter.mp hp).1, rfl⟩

theorem validatePath_ok_str (env : Env) (v : Value)
    (h : validatePath env v = .ok ()) :
    ∃ p n, v = Value.str p ∧ env.fsSize p = some n := by
  cases v with
  | str p =>
    simp only [validatePath] at h
    by_cases ht : (Value.str p).truthy = false
    · rw [if_pos ht] at h
      exact Except.noConfusion h
    · rw [if_neg ht] at h
      by_cases hc : chPre env.root.data p.data = false
      · rw [if_pos hc] at h
        exact Except.noConfusion h
      · rw [if_neg hc] at h
        cases hf : env.fsSize p with
        | none =>
          simp only [hf] at h
          exact Except.noConfusion h
        | some n => exact ⟨p, n, rfl, hf⟩
  | null =>
    simp only [validatePath] at h
    by_cases ht : (Value.null).truthy = false
    · rw [if_pos ht] at h
      exact Except.noConfusion h
    · rw [if_neg ht] at h
      exact Except.noConfusion h
  | int m =>
    simp only [validatePath] at h
    by_cases ht : (Value.int m).truthy = false
    · rw [if_pos ht] at h
      exact Except.noConfusion h
    · rw [if_neg ht] at h
      exact Except.noConfusion h
  | bool b =>
    simp only [validatePath] at h
    by_cases ht : (Value.bool b).truthy = false
    · rw [if_pos ht] at h
      exact Except.noConfusion h
    · rw [if_neg ht] at h
      exact Except.noConfusion h

theorem sizeStep_ok_of_valid (env : Env) (params : Dict) (idv : Value)
    (hvalid : validateParams env params = .ok ()) :
    (dget params "path" = none ∧
      sizeStep env (dset params "id" idv) = .ok (dset params "id" idv)) ∨
    (∃ p n, dget params "path" = some (.str p) ∧ env.fsSize p = some n ∧
      sizeStep env (dset params "id" idv)
        = .ok (dset (dset params "id" idv) "size" (.int (n : Int)))) := by
  have hpd : dget (dset params "id" idv) "path" = dget params "path" :=
    dget_dset_ne params "id" "path" idv (by decide)
  cases hp : dget params "path" with
  | none =>
    left
    refine ⟨rfl, ?_⟩
    unfold sizeStep
    rw [hpd, hp]
  | some v =>
    right
    unfold validateParams at hvalid
    simp only [hp] at hvalid
    obtain ⟨p, n, rfl, hf⟩ := validatePath_ok_str env v hvalid
    refine ⟨p, n, rfl, hf, ?_⟩
    unfold sizeStep
    rw [hpd, hp]
    simp only [hf]

theorem record_action_content (db : DB) (f : Value) (c a ap : String)
    (n : Int) : (record_action db f c a ap n).content = db.content := rfl

theorem record_action_history (db : DB) (f : Value) (c a ap : String)
    (n : Int) : (record_action db f c a ap n).history
      = db.history ++ [{ file_id := toSql f, client_name := c,
                         action := a, action_params := ap,
                         timestamp := n }] := rfl

theorem update_content_history (db : DB) (data : Dict) :
    (update_content db data).history = db.history := rfl

theorem update_content_content (db : DB) (data : Dict) :
    (update_content db data).content
      = db.content.map (fun e =>
          if sqlEq e.id (toSql ((dget (process_content_data data)
              "id").getD Value.null)) = true
          then applyCols e (process_content_data data) else e) := rfl

theorem update_content_modified_map (db : DB) (data : Dict)
    (h : ¬ "modified" ∈ dkeys data) :
    (update_content db data).content.map (fun x => x.modified)
      = db.content.map (fun x => x.modified) := by
  rw [update_content_content, List.map_map]
  apply List.map_congr_left
  intro y hy
  simp only [Function.comp]
  by_cases hc : sqlEq y.id (toSql ((dget (process_content_data data)
      "id").getD Value.null)) = true
  · rw [if_pos hc]
    apply applyCols_modified_of_not_mem
    intro hm
    exact h (dkeys_strip_sub data COLS "modified" hm)
  · rw [if_neg hc]

/-- Claim C4, amended.  For a successful update on an alive entry: when
the supplied params contain no trigger attribute and no modified key,
the modified column of every row is unchanged.  When any trigger
attribute is supplied, the modified column of the target row becomes
the call clock and one update ActionRecord is appended whose action
params join the key list of the params dictionary as mutated in place
by the update: the supplied keys, then id unless supplied, then size
when a path was supplied without a size, then modified unless supplied.
The record is not limited to the changed attribute names. -/
theorem claim4_update_triggers (env : Env) (now : Int) (client : String)
    (idv : Value) (params : Dict) (db : DB)
    (hnd : (dkeys params).Nodup)
    (hex : db.content.any (fun x =>
        sqlEq x.id (toSql idv) && sqlEq x.alive (Value.int 1)) = true)
    (hvalid : validateParams env params = .ok ()) :
    (MODIFY_TRIGGERS.all (fun k => !(hasKey params k)) = true →
      hasKey params "modified" = false →
      ((update_file env now client idv params db).2).content.map
          (fun x => x.modified)
        = db.content.map (fun x => x.modified)) ∧
    (MODIFY_TRIGGERS.any (fun k => hasKey params k) = true →
      ∃ d2, _update_file env now idv params db
          = .ok (d2, update_content db d2) ∧
        dkeys d2 = dkeys params
          ++ (if "id" ∈ dkeys params then [] else ["id"])
          ++ (if "path" ∈ dkeys params ∧ ¬ "size" ∈ dkeys params
              then ["size"] else [])
          ++ (if "modified" ∈ dkeys params then [] else ["modified"]) ∧
        ((update_file env now client idv params db).2).history
          = db.history ++
            [{ file_id := toSql idv, client_name := client,
               action := "update",
               action_params := String.intercalate ", " (dkeys d2),
               timestamp := now }] ∧
        ∀ x ∈ ((update_file env now client idv params db).2).content,
          sqlEq x.id (toSql idv) = true → x.modified = Value.int now) := by
  have hexv := existsEntry_id env db idv
  constructor
  · intro hnotrig hnomod
    simp only [Registry.MODIFY_TRIGGERS, List.all_cons, List.all_nil,
      Bool.and_eq_true, Bool.not_eq_true'] at hnotrig
    have hpath : dget params "path" = none :=
      (dget_none_iff_hasKey params "path").mpr hnotrig.1
    have hsize : sizeStep env (dset params "id" idv)
        = .ok (dset params "id" idv) := by
      unfold sizeStep
      rw [dget_dset_ne params "id" "path" idv (by decide), hpath]
    have htrig1 : MODIFY_TRIGGERS.any
        (fun k => hasKey (dset params "id" idv) k) = false := by
      simp only [Registry.MODIFY_TRIGGERS, List.any_cons, List.any_nil,
        hasKey_dset]
      simp [hnotrig.1, hnotrig.2.1, hnotrig.2.2.1, hnotrig.2.2.2.1,
        hnotrig.2.2.2.2.1, hnotrig.2.2.2.2.2]
    have hupdf : _update_file env now idv params db
        = .ok (dset params "id" idv,
            update_content db (dset params "id" idv)) := by
      unfold _update_file
      simp only [hsize, htrig1, Bool.false_eq_true, if_false]
    have h2nd : (update_file env now client idv params db).2
        = record_action (update_content db (dset params "id" idv)) idv
            client "update"
            (String.intercalate ", " (dkeys (dset params "id" idv)))
            now := by
      unfold update_file
      simp only [hexv, hex, hvalid, hupdf, get_file_id]
    rw [h2nd, record_action_content]
    apply update_content_modified_map
    intro hm
    rw [dkeys_dset] at hm
    by_cases hkid : hasKey params "id" = true
    · rw [if_pos hkid] at hm
      have := (mem_dkeys params "modified").mp hm
      rw [hnomod] at this
      exact Bool.noConfusion this
    · rw [if_neg hkid] at hm
      rw [List.mem_append] at hm
      cases hm with
      | inl hm =>
        have := (mem_dkeys params "modified").mp hm
        rw [hnomod] at this
        exact Bool.noConfusion this
      | inr hm =>
        rw [List.mem_singleton] at hm
        exact absurd hm (by decide)
  · intro htrig
    rcases sizeStep_ok_of_valid env params idv hvalid with
      ⟨hpath, hsize⟩ | ⟨p, n, hpath, hf, hsize⟩
    · -- no path in params
      have hpathK : ¬ "path" ∈ dkeys params := by
        intro hm
        have h2 := (mem_dkeys params "path").mp hm
        rw [(dget_none_iff_hasKey params "path").mp hpath] at h2
        exact Bool.noConfusion h2
      have htrig1 : MODIFY_TRIGGERS.any
          (fun k => hasKey (dset params "id" idv) k) = true := by
        simp only [Registry.MODIFY_TRIGGERS, List.any_cons, List.any_nil,
          hasKey_dset]
        simp only [Registry.MODIFY_TRIGGERS, List.any_cons, List.any_nil] at htrig
        simpa using htrig
      have hupdf : _update_file env now idv params db
          = .ok (dset (dset params "id" idv) "modified" (.int now),
              update_content db
                (dset (dset params "id" idv) "modified" (.int now))) := by
        unfold _update_file
        simp only [hsize, htrig1, if_true]
      have h2nd : (update_file env now client idv params db).2
          = record_action (update_content db
              (dset (dset params "id" idv) "modified" (.int now))) idv
              client "update"
              (String.intercalate ", "
                (dkeys (dset (dset params "id" idv) "modified"
                  (.int now)))) now := by
        unfold update_file
        simp only [hexv, hex, hvalid, hupdf, get_file_id]
      refine ⟨dset (dset params "id" idv) "modified" (.int now),
        hupdf, ?_, ?_, ?_⟩
      · rw [dkeys_dset, hasKey_dset, dkeys_dset]
        by_cases h1 : hasKey params "id" = true <;>
          by_cases h2 : hasKey params "modified" = true <;>
          simp [h1, h2, mem_dkeys, hpathK, List.append_assoc]
      · rw [h2nd, record_action_history, update_content_history]
      · intro x hx hxid
        rw [h2nd, record_action_content, update_content_content] at hx
        have hidg : dget (process_content_data
            (dset (dset params "id" idv) "modified" (.int now)))
            "id" = some idv := by
          rw [dget_process_cols _ "id" (by decide),
            dget_dset_ne _ "modified" "id" _ (by decide),
            dget_dset_self]
        rw [hidg] at hx
        simp only [Option.getD_some] at hx
        rw [List.mem_map] at hx
        obtain ⟨y, hy, rfl⟩ := hx
        by_cases hc : sqlEq y.id (toSql idv) = true
        · rw [if_pos hc]
          have hmg : dget (process_content_data
              (dset (dset params "id" idv) "modified" (.int now)))
              "modified" = some (Value.int now) := by
            rw [dget_process_cols _ "modified" (by decide),
              dget_dset_self]
          have hnd2 : (dkeys (process_content_data
              (dset (dset params "id" idv) "modified"
                (.int now)))).Nodup :=
            dkeys_strip_nodup _ _
              (dkeys_dset_nodup _ _ _ (dkeys_dset_nodup _ _ _ hnd))
          exact (applyCols_modified_of_get _ _ _ hnd2 hmg).trans rfl
        · rw [if_neg hc] at hxid ⊢
          exact absurd hxid hc
    · -- path in params
      have hpk : hasKey params "path" = true := hasKey_of_dget_some hpath
      have hpathK : "path" ∈ dkeys params := (mem_dkeys params "path").mpr hpk
      have htrig1 : MODIFY_TRIGGERS.any (fun k =>
          hasKey (dset (dset params "id" idv) "size" (.int (n : Int))) k)
          = true := by
        simp only [Registry.MODIFY_TRIGGERS, List.any_cons, List.any_nil,
          hasKey_dset]
        simp [hpk]
      have hupdf : _update_file env now idv params db
          = .ok (dset (dset (dset params "id" idv) "size"
                (.int (n : Int))) "modified" (.int now),
              update_content db
                (dset (dset (dset params "id" idv) "size"
                  (.int (n : Int))) "modified" (.int now))) := by
        unfold _update_file
        simp only [hsize, htrig1, if_true]
      have h2nd : (update_file env now client idv params db).2
          = record_action (update_content db
              (dset (dset (dset params "id" idv) "size"
                (.int (n : Int))) "modified" (.int now))) idv
              client "update"
              (String.intercalate ", "
                (dkeys (dset (dset (dset params "id" idv) "size"
                  (.int (n : Int))) "modified" (.int now)))) now := by
        unfold update_file
        simp only [hexv, hex, hvalid, hupdf, get_file_id]
      refine ⟨dset (dset (dset params "id" idv) "size"
          (.int (n : Int))) "modified" (.int now),
        hupdf, ?_, ?_, ?_⟩
      · rw [dkeys_dset, hasKey_dset, hasKey_dset, dkeys_dset,
          hasKey_dset, dkeys_dset]
        by_cases h1 : hasKey params "id" = true <;>
          by_cases h2 : hasKey params "modified" = true <;>
          by_cases h3 : hasKey params "size" = true <;>
          simp [h1, h2, h3, mem_dkeys, hpathK, List.append_assoc]
      · rw [h2nd, record_action_history, update_content_history]
      · intro x hx hxid
        rw [h2nd, record_action_content, update_content_content] at hx
        have hidg : dget (process_content_data
            (dset (dset (dset params "id" idv) "size"
              (.int (n : Int))) "modified" (.int now)))
            "id" = some idv := by
          rw [dget_process_cols _ "id" (by decide),
            dget_dset_ne _ "modified" "id" _ (by decide),
            dget_dset_ne _ "size" "id" _ (by decide),
            dget_dset_self]
        rw [hidg] at hx
        simp only [Option.getD_some] at hx
        rw [List.mem_map] at hx
        obtain ⟨y, hy, rfl⟩ := hx
        by_cases hc : sqlEq y.id (toSql idv) = true
        · rw [if_pos hc]
          have hmg : dget (process_content_data
              (dset (dset (dset params "id" idv) "size"
                (.int (n : Int))) "modified" (.int now)))
              "modified" = some (Value.int now) := by
            rw [dget_process_cols _ "modified" (by decide),
              dget_dset_self]
          have hnd2 : (dkeys (process_content_data
              (dset (dset (dset params "id" idv) "size"
                (.int (n : Int))) "modified" (.int now)))).Nodup :=
            dkeys_strip_nodup _ _
              (dkeys_dset_nodup _ _ _ (dkeys_dset_nodup _ _ _
                (dkeys_dset_nodup _ _ _ hnd)))
          exact (applyCols_modified_of_get _ _ _ hnd2 hmg).trans rfl
        · rw [if_neg hc] at hxid ⊢
          exact absurd hxid hc

/-- Counterexample to claim C4 as stated: updating only the category of
an alive entry records action params listing category, id and modified,
not the single changed attribute category. -/
theorem claim4_counterexample :
    ((update_file toyEnv 50 "cli" (Value.int 1)
        [("category", Value.str "news")]
        ⟨[⟨Value.int 1, Value.str "/srv/a.mp4", Value.int 3, Value.int 1,
           Value.int 1, Value.null, Value.null, Value.str "v1",
           Value.int 1⟩], [], 2⟩).2).history
      = [{ file_id := Value.int 1, client_name := "cli",
           action := "update", action_params := "category, id, modified",
           timestamp := 50 }]
    ∧ "category, id, modified" ≠ "category" := by
  refine ⟨rfl, ?_⟩
  decide

/-- Witness for claim C4: updating only the category of an alive entry
stamps modified with the call clock and appends the update record with
the mutated key list, and an update supplying only the uploaded
attribute leaves every modified column unchanged. -/
theorem claim4_witness :
    (∃ d2, _update_file toyEnv 50 (Value.int 1)
        [("category", Value.str "news")]
        ⟨[⟨Value.int 1, Value.str "/srv/a.mp4", Value.int 3, Value.int 1,
           Value.int 1, Value.null, Value.null, Value.str "v1",
           Value.int 1⟩], [], 2⟩
        = .ok (d2, update_content
            ⟨[⟨Value.int 1, Value.str "/srv/a.mp4", Value.int 3,
               Value.int 1, Value.int 1, Value.null, Value.null,
               Value.str "v1", Value.int 1⟩], [], 2⟩ d2)
      ∧ dkeys d2 = ["category"]
          ++ (if "id" ∈ dkeys [("category", Value.str "news")]
              then [] else ["id"])
          ++ (if "path" ∈ dkeys [("category", Value.str "news")]
                ∧ ¬ "size" ∈ dkeys [("category", Value.str "news")]
              then ["size"] else [])
          ++ (if "modified" ∈ dkeys [("category", Value.str "news")]
              then [] else ["modified"]))
    ∧ ((update_file toyEnv 50 "cli" (Value.int 1)
        [("uploaded", Value.int 9)]
        ⟨[⟨Value.int 1, Value.str "/srv/a.mp4", Value.int 3, Value.int 1,
           Value.int 1, Value.null, Value.null, Value.str "v1",
           Value.int 1⟩], [], 2⟩).2).content.map (fun x => x.modified)
      = [Value.int 1] := by
  constructor
  · obtain ⟨d2, h1, h2, _, _⟩ :=
      (claim4_update_triggers toyEnv 50 "cli" (Value.int 1)
        [("category", Value.str "news")]
        ⟨[⟨Value.int 1, Value.str "/srv/a.mp4", Value.int 3, Value.int 1,
           Value.int 1, Value.null, Value.null, Value.str "v1",
           Value.int 1⟩], [], 2⟩
        (by decide) (by decide) (by rfl)).2 (by decide)
    exact ⟨d2, h1, h2⟩
  · have h := (claim4_update_triggers toyEnv 50 "cli" (Value.int 1)
      [("uploaded", Value.int 9)]
      ⟨[⟨Value.int 1, Value.str "/srv/a.mp4", Value.int 3, Value.int 1,
         Value.int 1, Value.null, Value.null, Value.str "v1",
         Value.int 1⟩], [], 2⟩
      (by decide) (by decide) (by rfl)).1 (by decide) (by decide)
    rw [h]
    rfl

end Registry
